import Mathlib

/-!
Shallow embedding of the node-tree editing add-on (a Blender node-editor
plugin).  The embedding translates the Python sources under `src/`:

* `src/utils/nodes.py`   — socket visibility and socket screen placement;
* `src/utils/operators.py` and `src/utils/handlers.py` — the operator
  dispatch layer (`BaseOperator.execute`, `BaseNodeTreeHandler._execute`);
* `src/operators/randomize_seed.py` — the seed-randomization graph rewrite
  (`check_node_tree`, `get_seed_links`, `get_tagged_nodes`,
  `RandomizeSeed._execute_node_tree`, `ResetSeeds._execute`);
* `src/operators/match_group_interface.py` — the group-interface matcher
  (`copy_socket_properties`, `is_panel_empty`, `MatchGroupInterface._execute`).

Host (Blender) state is made explicit: a `NodeTree` value carries the node
and link collections, the interface item list, and the persisted custom
property `auto_seed_counter` (`None` when the property group is absent).
Mutation is modelled by explicit state passing; Python exceptions
(KeyError on collection lookups, AttributeError on missing attributes,
access to removed graph handles) are modelled with `Except String`.
Machine integers written back through the host property system
(`IntProperty`, `NodeSocketInt.default_value`) are clamped to signed
32-bit range, as the host clamps them.  Geometry coordinates are modelled
as integers: the UI scale factor is fixed at its default `1`, the only
divisor appearing in the coordinate arithmetic, so every coordinate
operation of the sources is exact over the integers, and no claim below
depends on a coordinate value.
-/

namespace BlenderTools

namespace Rand

/-- Socket data as used by `randomize_seed.py` and `utils/nodes.py`:
`name`, `identifier`, the enum `type` (for example `"VECTOR"`), the
`hide`/`enabled`/`hide_value` flags, and the integer `default_value`
carried by integer sockets. -/
structure NodeSocket where
  name : String
  identifier : String
  type : String
  hide : Bool
  enabled : Bool
  hide_value : Bool
  default_value : Int
  deriving Repr, DecidableEq

/-- Node data: numeric handle `id` (host object identity), `bl_idname`,
the enum `type`, display `label`, flags, geometry, optional `parent`
frame handle, the socket lists, and the `data_type` enum used by hash
nodes. -/
structure Node where
  id : Nat
  bl_idname : String
  type : String
  label : String
  hide : Bool
  select : Bool
  width : Int
  parent : Option Nat
  locx : Int
  locy : Int
  dimx : Int
  dimy : Int
  inputs : List NodeSocket
  outputs : List NodeSocket
  data_type : String
  deriving Repr, DecidableEq

/-- A link records its endpoints by node handle and socket identifier.
The Python link object holds direct references; handles are resolved by
lookup here. -/
structure Link where
  from_node : Nat
  from_socket : String
  to_node : Nat
  to_socket : String
  deriving Repr, DecidableEq

/-- Interface item as consulted by `randomize_seed.py`: `item_type` is
`"SOCKET"` or `"PANEL"`, `in_out` is `"INPUT"` or `"OUTPUT"`, and
`stype` is the socket type enum used when instantiating a
`NodeGroupInput` node from the interface. -/
structure IfaceItem where
  item_type : String
  in_out : String
  name : String
  identifier : String
  stype : String
  deriving Repr, DecidableEq

/-- The node tree: node and link collections, the interface
(`none` models `node_tree.interface is None`), the persisted
`auto_seed_counter` custom property (`none` models an absent property
group, i.e. `get_custom_properties` returning `None`), and the fresh
handle supply used by `nodes.new`. -/
structure NodeTree where
  nodes : List Node
  links : List Link
  interface : Option (List IfaceItem)
  props : Option Int
  next_id : Nat
  deriving Repr, DecidableEq

def NodeTree.findNode (t : NodeTree) (i : Nat) : Option Node :=
  t.nodes.find? (fun n => n.id == i)

def Node.findInput (n : Node) (sid : String) : Option NodeSocket :=
  n.inputs.find? (fun s => s.identifier == sid)

def Node.findOutput (n : Node) (sid : String) : Option NodeSocket :=
  n.outputs.find? (fun s => s.identifier == sid)

/-- Lookup of a socket by name, modelling Python collection indexing
`node.outputs["Name"]` (exact, case-sensitive). -/
def outputByName (socks : List NodeSocket) (nm : String) : Option NodeSocket :=
  socks.find? (fun s => s.name == nm)

/-- A socket `is_linked` when some link of the tree is attached to it on
either side. -/
def NodeTree.isLinked (t : NodeTree) (nid : Nat) (sid : String) : Bool :=
  t.links.any (fun l =>
    (l.from_node == nid && l.from_socket == sid) ||
    (l.to_node == nid && l.to_socket == sid))

/-- Translation of `is_socket_hidden` (utils/nodes.py line 28): a socket
is hidden when its `hide` flag is set or it is disabled. -/
def is_socket_hidden (s : NodeSocket) : Bool :=
  s.hide || !s.enabled

/-- Host UI scale factor `bpy.context.preferences.system.ui_scale`,
fixed at the default `1` (its value is irrelevant to every claim); the
coordinate divisions by it are then exact, so coordinates are modelled
as integers. -/
def ui_scale : Int := 1

/-- Absolute node location: the node location plus the locations of its
chain of parent frames, resolved by handle with fuel bounded by the node
count (parent chains of well-formed trees are acyclic). -/
def locationAbsoluteAux (t : NodeTree) : Nat → Node → Int × Int
  | 0, n => (n.locx, n.locy)
  | fuel + 1, n =>
    match n.parent with
    | none => (n.locx, n.locy)
    | some p =>
      match t.findNode p with
      | none => (n.locx, n.locy)
      | some pn =>
        let pl := locationAbsoluteAux t fuel pn
        (n.locx + pl.1, n.locy + pl.2)

def NodeTree.location_absolute (t : NodeTree) (n : Node) : Int × Int :=
  locationAbsoluteAux t t.nodes.length n

/-- Translation of the inner `_is_tall` helper of `get_socket_location`
(utils/nodes.py lines 55-65). -/
def is_tall (t : NodeTree) (n : Node) (s : NodeSocket) : Bool :=
  if s.type != "VECTOR" then false
  else if s.hide_value then false
  else if t.isLinked n.id s.identifier then false
  else if n.type == "BSDF_PRINCIPLED" && s.identifier == "Subsurface Radius" then false
  else true

/-- Output-side scan of `get_socket_location` (utils/nodes.py lines
74-84): walk the outputs top-down, skipping hidden sockets (and failing
if the requested socket is itself hidden), stepping `y` down by the row
offset. -/
def socketLocOut (target : String) (x : Int) : List NodeSocket → Int → Option (Int × Int)
  | [], _ => none
  | s :: rest, y =>
    if is_socket_hidden s then
      if s.identifier == target then none else socketLocOut target x rest y
    else if s.identifier == target then some (x, y)
    else socketLocOut target x rest (y - 22)

/-- Input-side scan of `get_socket_location` (utils/nodes.py lines
85-97): walk the inputs bottom-up with the tall-row adjustment for
visible vector sockets. -/
def socketLocIn (t : NodeTree) (n : Node) (target : String) (x : Int) :
    List NodeSocket → Int → Option (Int × Int)
  | [], _ => none
  | s :: rest, y =>
    if is_socket_hidden s then
      if s.identifier == target then none else socketLocIn t n target x rest y
    else
      let tall : Int := if is_tall t n s then 1 else 0
      let y' := y + 28 * tall
      if s.identifier == target then some (x, y')
      else socketLocIn t n target x rest (y' + 22 + 32 * tall)

/-- Translation of `get_socket_location` (utils/nodes.py lines 33-100).
The Python body is wrapped in a `try`/`except` that converts any
exception into `None`; the embedding is total, so the function never
raises to its caller, and the fall-through of the Python `for` loops is
the `none` of the scan helpers. -/
def get_socket_location (t : NodeTree) (n : Node) (s : NodeSocket)
    (is_input : Bool) (absolute : Bool) : Option (Int × Int) :=
  if n.hide then none
  else
    let nl := if absolute then t.location_absolute n else (n.locx, n.locy)
    if !is_input then
      socketLocOut s.identifier (nl.1 + n.dimx / ui_scale + (-1)) n.outputs (nl.2 + (-34))
    else
      socketLocIn t n s.identifier nl.1 n.inputs.reverse (nl.2 - n.dimy / ui_scale + 16)

/-- Python `str.endswith(suffix)`: the suffix test on the character
sequence of the string. -/
def strEndsWith (s suffix : String) : Bool :=
  decide (suffix.data <:+ s.data)

/-- Python `str.strip().lower()` on the character sequence: surrounding
whitespace removed, ASCII letters lowercased (the only transformation
`str.lower` performs on the socket names involved). -/
def strStripLower (s : String) : String :=
  ⟨(((s.data.dropWhile Char.isWhitespace).reverse.dropWhile
      Char.isWhitespace).reverse).map
    (fun c => if c.isUpper then Char.ofNat (c.toNat + 32) else c)⟩

/-- The tag suffix (randomize_seed.py line 24). -/
def TAG : String := "AutoSeedRandomizer"

/-- Signed 32-bit clamping applied by the host when writing an
`IntProperty` or a `NodeSocketInt.default_value`. -/
def clampInt32 (n : Int) : Int :=
  max (-(2 ^ 31)) (min (2 ^ 31 - 1) n)

/-- Translation of `check_node_tree` (randomize_seed.py lines 26-54):
`some msg` is the returned failure message, `none` the implicit `None`
of the success fall-through.  For each `NodeGroupInput` node only the
first output whose stripped lowercased name is `"seed"` is examined
(the Python loop breaks there). -/
def check_node_tree (t : NodeTree) : Option String :=
  match t.interface with
  | none => some "Node tree has no interface"
  | some items =>
    let has_seed_input := items.any (fun it =>
      it.item_type == "SOCKET" && it.in_out == "INPUT" &&
        strStripLower it.name == "seed")
    if !has_seed_input then some "Node tree has no seed input"
    else
      let has_linked_seed_inputs := t.nodes.any (fun n =>
        n.bl_idname == "NodeGroupInput" &&
          (match n.outputs.find? (fun s => strStripLower s.name == "seed") with
           | some s => !is_socket_hidden s && t.isLinked n.id s.identifier
           | none => false))
      if !has_linked_seed_inputs then some "No linked seed inputs found"
      else none

/-- A link comes from a seed output of a group-input node into a
non-reroute node (the outer condition of `get_seed_links`, lines 60-68;
the endpoint truthiness checks hold for every represented link, and
endpoint handles are resolved by lookup). -/
def isSeedSource (t : NodeTree) (l : Link) : Bool :=
  match t.findNode l.from_node, t.findNode l.to_node with
  | some fn, some tn =>
    fn.bl_idname == "NodeGroupInput" &&
      (match fn.findOutput l.from_socket with
       | some fs => strStripLower fs.name == "seed"
       | none => false) &&
      tn.bl_idname != "NodeReroute"
  | _, _ => false

/-- The destination of a link is an already-tagged hash node (the inner
exclusion of `get_seed_links`, lines 69-72). -/
def isTaggedDest (t : NodeTree) (l : Link) : Bool :=
  match t.findNode l.to_node with
  | some tn => tn.bl_idname == "FunctionNodeHashValue" && strEndsWith tn.label TAG
  | none => false

/-- A link qualifies for rewriting when it is a seed-source link whose
destination is not an already-tagged hash node. -/
def seedLinkQualifies (t : NodeTree) (l : Link) : Bool :=
  isSeedSource t l && !isTaggedDest t l

/-- Translation of `get_seed_links` (randomize_seed.py lines 56-80):
the qualifying links in tree order, or the failure message when there
are none.  In poll mode the Python function returns `[]` as soon as one
qualifying link is seen. -/
def get_seed_links (t : NodeTree) (poll : Bool) : List Link ⊕ String :=
  if poll then
    if t.links.any (seedLinkQualifies t) then Sum.inl []
    else Sum.inr "No seed links found"
  else
    let seed_links := t.links.filter (seedLinkQualifies t)
    if seed_links.isEmpty then Sum.inr "No seed links found"
    else Sum.inl seed_links

/-- Translation of `get_tagged_nodes` (randomize_seed.py lines 82-87). -/
def get_tagged_nodes (t : NodeTree) : List Node :=
  t.nodes.filter (fun n =>
    n.bl_idname == "FunctionNodeHashValue" && strEndsWith n.label TAG)

/-- The label written onto an inserted hash node (randomize_seed.py
line 138, the counter formatted into the f-string before the tag). -/
def mkTagLabel (c : Int) : String := toString c ++ " " ++ TAG

/-- Replace the node with the given handle (in-place field mutation of a
host node object). -/
def NodeTree.updateNode (t : NodeTree) (nid : Nat) (f : Node → Node) : NodeTree :=
  { t with nodes := t.nodes.map (fun n => if n.id == nid then f n else n) }

/-- Model of `node_tree.links.new(from_socket, to_socket,
verify_limits=True)`: existing links into the destination socket are
removed (every destination socket reached here is a single-link value
input, so `verify_limits` evicts the previous link) and the new link is
appended. -/
def NodeTree.linksNew (t : NodeTree) (fn : Nat) (fs : String) (tn : Nat) (ts : String) :
    NodeTree :=
  { t with links :=
      t.links.filter (fun l => !(l.to_node == tn && l.to_socket == ts)) ++
        [⟨fn, fs, tn, ts⟩] }

/-- Model of `node_tree.nodes.remove(node)`: the node disappears and so
do the links attached to it. -/
def NodeTree.nodesRemove (t : NodeTree) (nid : Nat) : NodeTree :=
  { t with
      nodes := t.nodes.filter (fun n => n.id != nid),
      links := t.links.filter (fun l => l.from_node != nid && l.to_node != nid) }

/-- Default minimum node width (`bl_width_min`), a host UI constant. -/
def bl_width_min : Int := 100

/-- A freshly created `FunctionNodeHashValue` node
(`nodes.new(type="FunctionNodeHashValue")`): inputs `Value` and `Seed`,
output `Hash`. -/
def newHashValueNode (nid : Nat) : Node :=
  { id := nid
    bl_idname := "FunctionNodeHashValue"
    type := "HASH_VALUE"
    label := ""
    hide := false
    select := true
    width := 140
    parent := none
    locx := 0, locy := 0, dimx := 140, dimy := 100
    inputs :=
      [ { name := "Value", identifier := "Value", type := "INT", hide := false,
          enabled := true, hide_value := false, default_value := 0 },
        { name := "Seed", identifier := "Seed", type := "INT", hide := false,
          enabled := true, hide_value := false, default_value := 0 } ]
    outputs :=
      [ { name := "Hash", identifier := "Hash", type := "INT", hide := false,
          enabled := true, hide_value := false, default_value := 0 } ]
    data_type := "FLOAT" }

/-- The output sockets of a freshly created `NodeGroupInput` node: one
per interface input socket, in interface order, plus the trailing
virtual extension socket (empty name). -/
def groupInputOutputs (t : NodeTree) : List NodeSocket :=
  (match t.interface with
   | none => []
   | some items =>
     (items.filter (fun it => it.item_type == "SOCKET" && it.in_out == "INPUT")).map
       (fun it =>
         { name := it.name, identifier := it.identifier, type := it.stype,
           hide := false, enabled := true, hide_value := false, default_value := 0 }))
  ++ [ { name := "", identifier := "__extend__", type := "CUSTOM", hide := false,
         enabled := true, hide_value := false, default_value := 0 } ]

/-- A freshly created `NodeGroupInput` node. -/
def newGroupInputNode (t : NodeTree) (nid : Nat) : Node :=
  { id := nid
    bl_idname := "NodeGroupInput"
    type := "GROUP_INPUT"
    label := ""
    hide := false
    select := true
    width := 140
    parent := none
    locx := 0, locy := 0, dimx := 140, dimy := 100
    inputs := []
    outputs := groupInputOutputs t
    data_type := "" }

/-- The hide loop applied to the outputs of the inserted group-input
node (randomize_seed.py lines 153-157): only sockets whose stripped
lowercased name is `"seed"` stay visible. -/
def hideAdjust (socks : List NodeSocket) : List NodeSocket :=
  socks.map (fun s =>
    if strStripLower s.name == "seed" then { s with hide := false }
    else { s with hide := true })

/-- Construction of the inserted hash node (randomize_seed.py lines
121-143): created, collapsed and shrunk, placed left of the destination
socket (falling back to the destination node anchor when the socket
position is unresolved), tagged with the counter label, switched to
integer hashing with the counter as `Value` default (the host socket
clamps to int32), and parented like the destination node. -/
def mkRN (t : NodeTree) (counter : Int) (l : Link) (to_node : Node) : Node :=
  let rid := t.next_id
  let rn := { newHashValueNode rid with
    hide := true, select := false, width := bl_width_min }
  let tR : NodeTree := { t with nodes := t.nodes ++ [rn], next_id := rid + 1 }
  let location :=
    match to_node.findInput l.to_socket with
    | some ts => get_socket_location tR to_node ts true true
    | none => none
  let location :=
    match location with
    | some loc => loc
    | none => tR.location_absolute to_node
  let rn :=
    { rn with
        locx := location.1 - bl_width_min - 25
        locy := location.2 + 15
        label := mkTagLabel counter
        data_type := "INT"
        inputs := rn.inputs.map (fun s =>
          if s.name == "Value" then { s with default_value := clampInt32 counter }
          else s) }
  match to_node.parent with
  | some p => { rn with parent := some p }
  | none => rn

/-- Construction of the inserted group-input node (randomize_seed.py
lines 145-163): created from the interface, collapsed and shrunk,
labelled `Seed`, all non-seed outputs hidden, placed left of the hash
node, and parented like the destination node. -/
def mkGN (t : NodeTree) (to_node rn : Node) : Node :=
  let rid := t.next_id
  let tR : NodeTree := { t with nodes := t.nodes ++ [rn], next_id := rid + 1 }
  let gid := rid + 1
  let gn := { newGroupInputNode tR gid with
    hide := true, select := false, width := bl_width_min, label := "Seed" }
  let gn := { gn with outputs := hideAdjust gn.outputs }
  let tRG : NodeTree := { t with nodes := t.nodes ++ [rn, gn], next_id := gid + 1 }
  let rloc := tRG.location_absolute rn
  let gn := { gn with locx := rloc.1 - bl_width_min - 25, locy := rloc.2 }
  match to_node.parent with
  | some p => { gn with parent := some p }
  | none => gn

/-- The two `links.new` calls of the rewrite step (randomize_seed.py
lines 165-173) on the tree holding both inserted nodes: group-input
seed output into the hash `Seed` input, hash `Hash` output into the
original destination socket (which evicts the original link through
`verify_limits`). -/
def applyLinks (t : NodeTree) (l : Link) (rn gn : Node) (gsid : String) : NodeTree :=
  let rid := t.next_id
  let gid := rid + 1
  let t2 : NodeTree := { t with nodes := t.nodes ++ [rn, gn], next_id := gid + 1 }
  let t2 := t2.linksNew gid gsid rid "Seed"
  t2.linksNew rid "Hash" l.to_node l.to_socket

/-- The dead-supplier sweep of the rewrite step (randomize_seed.py
lines 178-180): the original source node is removed when none of its
output sockets is linked any more. -/
def orphanClean (t2 : NodeTree) (fromId : Nat) (fnode : Node) : NodeTree :=
  if fnode.outputs.any (fun s => t2.isLinked fromId s.identifier) then t2
  else t2.nodesRemove fromId

/-- Translation of one iteration of the rewrite loop of
`RandomizeSeed._execute_node_tree` (randomize_seed.py lines 117-180),
phased as the source is: build the hash node, build the group-input
node, rewire, sweep the orphaned supplier.  The Python code holds the
created nodes as object references and mutates their fields in place;
the embedding builds the records through the same sequence of field
updates and writes them into the node collection where the source
rewires.  Accessing a removed endpoint node of the link raises, as does
the lookup `outputs["Seed"]` on the new group-input node when no
interface input is named exactly `Seed`; the lookups `inputs["Value"]`,
`inputs["Seed"]` and `outputs["Hash"]` address fixed sockets of the
hash node type and are resolved structurally.  The explicit removal of
the original link is commented out in the source; the original link
disappears because the second `links.new` call targets the same
destination socket with `verify_limits=True`. -/
def processLink (t : NodeTree) (counter : Int) (l : Link) :
    Except String (NodeTree × Int) := do
  let some to_node := t.findNode l.to_node
    | throw "ReferenceError: link destination node removed"
  let rn := mkRN t counter l to_node
  let gn := mkGN t to_node rn
  let some gseed := outputByName gn.outputs "Seed" | throw "KeyError: Seed"
  let t2 := applyLinks t l rn gn gseed.identifier
  let some fnode := t2.findNode l.from_node
    | throw "ReferenceError: link source node removed"
  return (orphanClean t2 l.from_node fnode, counter + 1)

/-- The rewrite loop folds `processLink` over the collected links with
the running counter. -/
def foldStep (acc : NodeTree × Int) (l : Link) : Except String (NodeTree × Int) :=
  processLink acc.1 acc.2 l

/-- Translation of `RandomizeSeed._execute_node_tree` (randomize_seed.py
lines 107-182): collect the qualifying links, read the persisted
counter, rewrite every collected link, and write the counter back
(clamped by the host `IntProperty`).  The `some msg` component is the
returned message string, `none` the implicit `None`. -/
def RandomizeSeed_execute_node_tree (t : NodeTree) :
    Except String (NodeTree × Option String) :=
  match get_seed_links t false with
  | Sum.inr msg => .ok (t, some msg)
  | Sum.inl links =>
    match t.props with
    | none => .ok (t, some "Failed to get custom properties for node tree.")
    | some counter => do
      let r ← links.foldlM foldStep (t, counter)
      return ({ r.1 with props := some (clampInt32 r.2) }, none)

/-- Translation of `RandomizeSeed._poll_node_tree` (randomize_seed.py
lines 97-105). -/
def RandomizeSeed_poll_node_tree (t : NodeTree) : Option String :=
  match check_node_tree t with
  | some msg => some msg
  | none =>
    match get_seed_links t true with
    | Sum.inr msg => some msg
    | Sum.inl _ => none

/-- The dynamic type of the value an `_execute` override hands back to
`BaseOperator.execute`: an `OperatorResult` dataclass instance
(operators.py lines 43-47), a plain string, or `None`.
`BaseNodeTreeHandler._execute` (handlers.py lines 58-69) returns the
poll-failure message string or falls through returning `None`. -/
inductive PyExecResult where
  | opRes (return_type : List String) (message_type : Option (List String))
      (message : Option String)
  | strRes (s : String)
  | noneRes
  deriving Repr, DecidableEq

/-- Translation of `BaseNodeTreeHandler._execute` (handlers.py lines
58-69) as inherited by `RandomizeSeed`, with the node-tree resolution
from context or name abstracted to the resolved tree: on a poll failure
the message string is returned (after `poll_message_set`, a UI call);
otherwise `_execute_node_tree` runs and its result is discarded, the
method falling through to `None`. -/
def RandomizeSeed_handler_execute (t : NodeTree) :
    Except String (NodeTree × PyExecResult) :=
  match RandomizeSeed_poll_node_tree t with
  | some msg => .ok (t, .strRes msg)
  | none => do
    let r ← RandomizeSeed_execute_node_tree t
    return (r.1, .noneRes)

/-- Translation of `BaseOperator.execute` (operators.py lines 66-79)
applied to the value `_execute` returned.  The body reads
`result.message`: on an `OperatorResult` this succeeds (and the optional
`self.report` call is a UI side effect), and `result.return_type` is
returned; on a string or `None`, Python attribute lookup raises
`AttributeError`. -/
def BaseOperator_execute (r : PyExecResult) : Except String (List String) :=
  match r with
  | .opRes rt _mt _msg => .ok rt
  | .strRes _ => .error "AttributeError: str object has no attribute message"
  | .noneRes => .error "AttributeError: NoneType object has no attribute message"

/-- The composed `execute` entry point of the `RandomizeSeed` operator:
`BaseOperator.execute` invoking the inherited
`BaseNodeTreeHandler._execute`. -/
def RandomizeSeed_execute (t : NodeTree) :
    Except String (NodeTree × List String) := do
  let r ← RandomizeSeed_handler_execute t
  let rt ← BaseOperator_execute r.2
  return (r.1, rt)

/-- Relabelling applied by the `ResetSeeds` loop body to one tagged
node with counter value `c` (randomize_seed.py lines 217-218): the label
is rewritten and the `Value` input default set (the host socket clamps
to int32). -/
def relabelNode (m : Node) (c : Int) : Node :=
  { m with
      label := mkTagLabel c
      inputs := m.inputs.map (fun s =>
        if s.name == "Value" then { s with default_value := clampInt32 c } else s) }

/-- One iteration of the `ResetSeeds` loop (randomize_seed.py lines
216-219): resolve the tagged node object, look up its `Value` input
(KeyError raises) and relabel it with the running counter. -/
def resetStep (acc : NodeTree × Int) (n : Node) : Except String (NodeTree × Int) := do
  let some node := acc.1.findNode n.id | throw "ReferenceError"
  let some _vin := outputByName node.inputs "Value" | throw "KeyError: Value"
  return (acc.1.updateNode n.id (fun m => relabelNode m acc.2), acc.2 + 1)

/-- Translation of `ResetSeeds._execute` (randomize_seed.py lines
204-223), with the node-tree resolution abstracted to the resolved
tree: every tagged node is relabelled with consecutive counters from 0
(in node-collection order) and its `Value` input default is set to the
counter; the persisted counter becomes the number of tagged nodes.  The
method ends with `return None`. -/
def ResetSeeds_execute (t : NodeTree) :
    Except String (NodeTree × PyExecResult) :=
  match t.props with
  | none => .ok (t, .strRes "Failed to get custom properties for node tree.")
  | some _ => do
    let tagged := get_tagged_nodes t
    let r ← tagged.foldlM resetStep (t, (0 : Int))
    return ({ r.1 with props := some (clampInt32 r.2) }, .noneRes)

end Rand

namespace Match

/-- A Python attribute value carried by an interface socket: numbers,
strings, booleans or vectors.  Socket attribute values are data objects,
never `type` objects. -/
inductive PyVal where
  | int (n : Int)
  | float (q : ℚ)
  | str (s : String)
  | boolean (b : Bool)
  | vec (v : List ℚ)
  deriving Repr, DecidableEq

/-- Python `x is type(y)` where `x` and `y` are socket attribute values:
`type(y)` is a type object and `x` is a data value (see `PyVal`), so the
identity comparison of `copy_socket_properties`
(match_group_interface.py line 90) is false for every pair of attribute
values. -/
def valueIsTypeOfValue (_x _y : PyVal) : Bool := false

/-- Interface socket data as read and written by
`copy_socket_properties`: the shared metadata fields, plus the five
per-type attributes which a given socket type may or may not expose
(`none` models `hasattr` being false). -/
structure IfaceSocket where
  identifier : String
  attribute_domain : String
  default_attribute_name : String
  default_input : String
  description : String
  hide_in_modifier : Bool
  hide_value : Bool
  is_panel_toggle : Bool
  menu_expanded : Bool
  name : String
  socket_type : String
  structure_type : String
  default_value : Option PyVal
  min_value : Option PyVal
  max_value : Option PyVal
  subtype : Option PyVal
  dimensions : Option PyVal
  deriving Repr, DecidableEq

/-- One step of the attribute loop of `copy_socket_properties`
(match_group_interface.py lines 87-91): the attribute is copied exactly
when both sides expose it (`hasattr`) and the identity test
`getattr(target, attr) is type(getattr(source, attr))` passes. -/
def copyAttr (tgt src : Option PyVal) : Option PyVal :=
  match tgt, src with
  | some tv, some sv => if valueIsTypeOfValue tv sv then some sv else some tv
  | _, _ => tgt

/-- Translation of `copy_socket_properties` (match_group_interface.py
lines 69-91): the shared metadata fields are assigned unconditionally;
then, unless the (just copied) socket type is `"NodeSocketMenu"`, each
of `default_value`, `min_value`, `max_value`, `subtype`, `dimensions`
goes through the guarded copy. -/
def copy_socket_properties (source target : IfaceSocket) : IfaceSocket :=
  let target :=
    { target with
        attribute_domain := source.attribute_domain
        default_attribute_name := source.default_attribute_name
        default_input := source.default_input
        description := source.description
        hide_in_modifier := source.hide_in_modifier
        hide_value := source.hide_value
        is_panel_toggle := source.is_panel_toggle
        menu_expanded := source.menu_expanded
        name := source.name
        socket_type := source.socket_type
        structure_type := source.structure_type }
  if target.socket_type == "NodeSocketMenu" then target
  else
    { target with
        default_value := copyAttr target.default_value source.default_value
        min_value := copyAttr target.min_value source.min_value
        max_value := copyAttr target.max_value source.max_value
        subtype := copyAttr target.subtype source.subtype
        dimensions := copyAttr target.dimensions source.dimensions }

/-- An interface item of a node tree: a socket or a panel, identified by
its `persistent_uid` (`uid`), holding a back-reference `parentId` to its
parent panel (`0` is the root panel) and its `position` under that
parent.  Sockets carry an `IfaceSocket` payload; panels carry
name/description/default-closed.  The embedding stores the parent and
requested position as fields; a `move_to_parent` updates them on the
moved item and leaves every other item untouched. -/
structure IItem where
  uid : Nat
  item_type : String
  parentId : Nat
  position : Nat
  sock : IfaceSocket
  pname : String
  pdescription : String
  default_closed : Bool
  deriving Repr, DecidableEq

/-- Direct children of a panel (its `interface_items`). -/
def childrenOf (iface : List IItem) (pid : Nat) : List IItem :=
  iface.filter (fun it => it.parentId == pid)

/-- Translation of `is_panel_empty` (match_group_interface.py lines
93-101): a panel is empty when each of its items is a panel that is
itself empty.  The Python recursion descends the panel tree; the fuel
argument bounds the descent and is unreachable for acyclic parent
structures when set to the item count. -/
def is_panel_empty (iface : List IItem) : Nat → Nat → Bool
  | 0, _ => true
  | fuel + 1, pid =>
    (childrenOf iface pid).all (fun c =>
      c.item_type == "PANEL" && is_panel_empty iface fuel c.uid)

/-- Walk the parent chain upward from panel uid `pid` and test whether
`target` occurs on it. -/
def hasAncestor (iface : List IItem) : Nat → Nat → Nat → Bool
  | 0, _, _ => false
  | fuel + 1, pid, target =>
    if pid == 0 then false
    else if pid == target then true
    else
      match iface.find? (fun it => it.uid == pid) with
      | none => false
      | some it => hasAncestor iface fuel it.parentId target

/-- Model of `interface.remove(item, move_content_to_parent=False)` for
a panel: the panel and everything below it disappear. -/
def removeItemAndContent (iface : List IItem) (uid : Nat) : List IItem :=
  iface.filter (fun it =>
    it.uid != uid && !hasAncestor iface iface.length it.parentId uid)

/-- Translation of the empty-panel sweep of `MatchGroupInterface._execute`
(match_group_interface.py lines 206-214): collect every panel that
`is_panel_empty` reports empty on the current interface, then remove
them in reverse order, each removal deleting the panel with its
content. -/
def prunePanels (iface : List IItem) : List IItem :=
  let panels_to_delete := iface.filter (fun it =>
    it.item_type == "PANEL" && is_panel_empty iface iface.length it.uid)
  panels_to_delete.reverse.foldl (fun acc it => removeItemAndContent acc it.uid) iface

/-- A node of the outer graph as consulted by the matcher link scan. -/
structure ONode where
  id : Nat
  bl_idname : String
  deriving Repr, DecidableEq

/-- A link of the outer graph, endpoints by node handle and socket
identifier (node-socket identifiers coincide with the interface socket
identifiers they instantiate). -/
structure OLink where
  from_node : Nat
  from_socket : String
  to_node : Nat
  to_socket : String
  deriving Repr, DecidableEq

/-- The link filter of `MatchGroupInterface._execute` (lines 161-170):
the link originates at a `NodeGroupInput` node and terminates at the
selected group node (endpoint truthiness checks hold for every
represented link). -/
def linkQualifies (outerNodes : List ONode) (nodeId : Nat) (l : OLink) : Bool :=
  match outerNodes.find? (fun n => n.id == l.from_node) with
  | some fn => fn.bl_idname == "NodeGroupInput" && l.to_node == nodeId
  | none => false

/-- Python dict insertion `m[k] = v`: the value of an existing key is
replaced in place, a new key is appended. -/
def dictInsert (m : List (String × String)) (k v : String) : List (String × String) :=
  if m.any (fun kv => kv.1 == k) then
    m.map (fun kv => if kv.1 == k then (k, v) else kv)
  else m ++ [(k, v)]

/-- Python dict lookup `m.get(k)`. -/
def dictGet (m : List (String × String)) (k : String) : Option String :=
  (m.find? (fun kv => kv.1 == k)).map (fun kv => kv.2)

def natDictInsert (m : List (Nat × Nat)) (k v : Nat) : List (Nat × Nat) :=
  if m.any (fun kv => kv.1 == k) then
    m.map (fun kv => if kv.1 == k then (k, v) else kv)
  else m ++ [(k, v)]

def natDictGet (m : List (Nat × Nat)) (k : Nat) : Option Nat :=
  (m.find? (fun kv => kv.1 == k)).map (fun kv => kv.2)

/-- Union of uid sets represented as duplicate-free lists
(`panels.update(...)`, line 172). -/
def setUnion (a b : List Nat) : List Nat :=
  a ++ b.filter (fun x => !a.contains x)

/-- The ancestor panel uids of an interface item, walking `parent`
upward (lines 139-144).  The chain ends at the root panel, which is a
real (truthy) panel object with `persistent_uid` 0, so 0 enters every
set. -/
def ancestorPanels (items : List IItem) : Nat → Nat → List Nat
  | 0, _ => []
  | fuel + 1, pid =>
    if pid == 0 then [0]
    else
      match items.find? (fun it => it.uid == pid) with
      | none => [pid]
      | some it => pid :: ancestorPanels items fuel it.parentId

/-- The map from outer socket identifiers to ancestor panel uid sets
(`source_id_to_panels`, lines 134-144); a Python dict, so for duplicate
identifiers the last socket item wins, and a missing key raises. -/
def source_id_to_panels (items : List IItem) (sid : String) : Option (List Nat) :=
  ((items.filter (fun it => it.item_type == "SOCKET")).reverse.find?
      (fun it => it.sock.identifier == sid)).map
    (fun it => ancestorPanels items items.length it.parentId)

/-- The map from nested-interface socket identifiers to the items
(dict comprehension, lines 149-155), as resolved against the interface
state captured at that point; the result is the socket item uid. -/
def targetIdToIface (target : List IItem) (tid : String) : Option Nat :=
  ((target.filter (fun it => it.item_type == "SOCKET")).reverse.find?
      (fun it => it.sock.identifier == tid)).map (fun it => it.uid)

/-- The link scan of `MatchGroupInterface._execute` (lines 157-172):
fold the outer links into the source-to-target identifier map and the
referenced panel uid set. -/
def buildSocketsMap (outer : List IItem) (outerNodes : List ONode) (nodeId : Nat)
    (links : List OLink) :
    Except String (List (String × String) × List Nat) :=
  links.foldlM
    (fun (acc : List (String × String) × List Nat) l =>
      if linkQualifies outerNodes nodeId l then do
        let some ps := source_id_to_panels outer l.from_socket
          | throw "KeyError: source_id_to_panels"
        return (dictInsert acc.1 l.from_socket l.to_socket, setUnion acc.2 ps)
      else return acc)
    ([], [])

/-- A panel item freshly created by `interface.new_panel`: appended at
the root level. -/
def newPanelItem (uid : Nat) (nm descr : String) (closed : Bool) : IItem :=
  { uid := uid
    item_type := "PANEL"
    parentId := 0
    position := 0
    sock :=
      { identifier := "", attribute_domain := "", default_attribute_name := "",
        default_input := "", description := "", hide_in_modifier := false,
        hide_value := false, is_panel_toggle := false, menu_expanded := false,
        name := "", socket_type := "", structure_type := "",
        default_value := none, min_value := none, max_value := none,
        subtype := none, dimensions := none }
    pname := nm
    pdescription := descr
    default_closed := closed }

/-- Model of `interface.move_to_parent(item, parent, position)`: the
moved item's parent and position fields are updated. -/
def moveToParent (iface : List IItem) (uid destPanel pos : Nat) : List IItem :=
  iface.map (fun it =>
    if it.uid == uid then { it with parentId := destPanel, position := pos } else it)

/-- Apply `copy_socket_properties(source, target_item)` to the socket
item with the given uid. -/
def copyOnto (iface : List IItem) (uid : Nat) (source : IfaceSocket) : List IItem :=
  iface.map (fun it =>
    if it.uid == uid then { it with sock := copy_socket_properties source it.sock }
    else it)

/-- One step of the rebuild walk of `MatchGroupInterface._execute`
(lines 178-200), processing one outer interface item against the state
(current target interface, panels map, fresh uid supply).  Panel items
not referenced by a matched socket, and socket items without a matched
(truthy) target identifier, are skipped without a move. -/
def rebuildStep (panels : List Nat) (sockets_map : List (String × String))
    (target0 : List IItem)
    (st : List IItem × List (Nat × Nat) × Nat) (source_item : IItem) :
    Except String (List IItem × List (Nat × Nat) × Nat) := do
  let tgt := st.1
  let pmap := st.2.1
  let fr := st.2.2
  if source_item.item_type == "PANEL" then
    if !panels.contains source_item.uid then return st
    else
      let tgt := tgt ++ [newPanelItem fr source_item.pname source_item.pdescription
        source_item.default_closed]
      let pmap := natDictInsert pmap source_item.uid fr
      let some dest := natDictGet pmap source_item.parentId
        | throw "KeyError: panels_map"
      return (moveToParent tgt fr dest source_item.position, pmap, fr + 1)
  else
    match dictGet sockets_map source_item.sock.identifier with
    | none => return st
    | some tid =>
      if tid == "" then return st
      else do
        let some tuid := targetIdToIface target0 tid
          | throw "KeyError: target_id_to_interface"
        let tgt := copyOnto tgt tuid source_item.sock
        let some dest := natDictGet pmap source_item.parentId
          | throw "KeyError: panels_map"
        return (moveToParent tgt tuid dest source_item.position, pmap, fr)

/-- Translation of the per-node body of `MatchGroupInterface._execute`
(match_group_interface.py lines 147-214) for one selected group node:
build the sockets map and referenced panel set from the outer links,
stage a temporary root panel, walk the outer items rebuilding panels
and copying/moving matched sockets, dissolve the temporary root
(promoting its content to the real root), and prune recursively empty
panels.  `fresh` supplies persistent uids for created panels, fresh for
the target interface. -/
def matchNode (outer : List IItem) (outerNodes : List ONode) (links : List OLink)
    (nodeId : Nat) (target : List IItem) (fresh : Nat) :
    Except String (List IItem) := do
  let r ← buildSocketsMap outer outerNodes nodeId links
  let sockets_map := r.1
  let panels := r.2
  let rootTemp := fresh
  let st0 : List IItem × List (Nat × Nat) × Nat :=
    (target ++ [newPanelItem rootTemp "Root_temp" "" false], [(0, rootTemp)], fresh + 1)
  let st ← outer.foldlM (rebuildStep panels sockets_map target) st0
  let tgt := (st.1.filter (fun it => it.uid != rootTemp)).map (fun it =>
    if it.parentId == rootTemp then { it with parentId := 0 } else it)
  return prunePanels tgt

/-- A concrete interface socket payload used by the matcher examples. -/
def exSockData (idv : String) : IfaceSocket :=
  { identifier := idv, attribute_domain := "POINT", default_attribute_name := "",
    default_input := "", description := "", hide_in_modifier := false,
    hide_value := false, is_panel_toggle := false, menu_expanded := false,
    name := idv, socket_type := "NodeSocketFloat", structure_type := "AUTO",
    default_value := some (.int 1), min_value := none, max_value := none,
    subtype := none, dimensions := none }

/-- Outer interface: a panel holding socket `A`, and socket `B` at the
root. -/
def exPanelR : IItem :=
  { uid := 1, item_type := "PANEL", parentId := 0, position := 0,
    sock := exSockData "", pname := "P", pdescription := "",
    default_closed := false }

def exSockA : IItem :=
  { uid := 2, item_type := "SOCKET", parentId := 1, position := 0,
    sock := exSockData "A", pname := "", pdescription := "",
    default_closed := false }

def exSockB : IItem :=
  { uid := 3, item_type := "SOCKET", parentId := 0, position := 1,
    sock := exSockData "B", pname := "", pdescription := "",
    default_closed := false }

def exOuterIface : List IItem := [exPanelR, exSockA, exSockB]

def exOuterNodes : List ONode := [⟨10, "NodeGroupInput"⟩, ⟨20, "GeometryNodeGroup"⟩]

/-- Two qualifying links carry outer sockets `A` and `B` into the same
input socket `T` of the selected node `20`. -/
def exOuterLinks : List OLink := [⟨10, "A", 20, "T"⟩, ⟨10, "B", 20, "T"⟩]

def exSockT : IItem :=
  { uid := 5, item_type := "SOCKET", parentId := 0, position := 0,
    sock := exSockData "T", pname := "", pdescription := "",
    default_closed := false }

def exTargetIface : List IItem := [exSockT]

/-- The interface `matchNode` produces on the example: socket `T` with
the attributes of the last-linked outer socket `B`, moved to the root;
the scaffolding panel created for `P` ended empty and was pruned. -/
def exMatchRes : List IItem :=
  [ { uid := 5, item_type := "SOCKET", parentId := 0, position := 1,
      sock := { exSockData "T" with name := "B" },
      pname := "", pdescription := "", default_closed := false } ]

/-- The existing target-interface item uid one rebuild step copies onto
and moves, if any (the selection of lines 189-200): a panel step only
creates and moves a fresh panel, and a socket step touches the resolved
target of its mapped identifier. -/
def touchedUid (sockets_map : List (String × String)) (target0 : List IItem)
    (it : IItem) : Option Nat :=
  if it.item_type == "PANEL" then none
  else
    match dictGet sockets_map it.sock.identifier with
    | none => none
    | some tid => if tid == "" then none else targetIdToIface target0 tid

/-- Outer interface for the duplicate-link example: a single root-level
socket `A`. -/
def exSockA2 : IItem :=
  { uid := 2, item_type := "SOCKET", parentId := 0, position := 0,
    sock := exSockData "A", pname := "", pdescription := "",
    default_closed := false }

/-- Two qualifying links carry the same outer socket `A` into two input
sockets `T1` and `T2` of the selected node `20`. -/
def exDupLinks : List OLink := [⟨10, "A", 20, "T1"⟩, ⟨10, "A", 20, "T2"⟩]

end Match

namespace Rand

/-- Well-formedness of a tree state, as guaranteed by the host graph:
node handles are distinct and below the fresh supply, links join
existing sockets of existing nodes, group-input nodes have no inputs,
and each input socket holds at most one incoming link (the link limit
of the value sockets involved here). -/
def NodeTree.wfB (t : NodeTree) : Bool :=
  decide ((t.nodes.map (fun n => n.id)).Nodup)
  && t.nodes.all (fun n => n.id < t.next_id)
  && t.links.all (fun l =>
      (match t.findNode l.from_node with
       | some fn => (fn.findOutput l.from_socket).isSome
       | none => false)
      && (match t.findNode l.to_node with
          | some tn => (tn.findInput l.to_socket).isSome
          | none => false))
  && t.nodes.all (fun n => !(n.bl_idname == "NodeGroupInput") || n.inputs.isEmpty)
  && decide (t.links.Pairwise (fun a b =>
      ¬(a.to_node = b.to_node ∧ a.to_socket = b.to_socket)))

/-- The interface declares an input socket named exactly `"Seed"` (the
capitalisation produced by the host for the conventional seed input);
this is what makes the Python lookup `outputs["Seed"]` on a fresh
group-input node succeed. -/
def hasSeedInterfaceInput (t : NodeTree) : Bool :=
  match t.interface with
  | some items => items.any (fun it =>
      it.item_type == "SOCKET" && it.in_out == "INPUT" && it.name == "Seed")
  | none => false

/-- Apply a partial index assignment (node handle to counter value) to a
node; used to describe the intermediate states of the `ResetSeeds`
loop. -/
def applyAssign (σ : List (Nat × Int)) (m : Node) : Node :=
  match σ.find? (fun kv => kv.1 == m.id) with
  | some kv => relabelNode m kv.2
  | none => m

/-- The index assignment built by the `ResetSeeds` loop: consecutive
counter values starting at `j`, one per listed node. -/
def assignFrom : List Node → Int → List (Nat × Int)
  | [], _ => []
  | n :: rest, j => (n.id, j) :: assignFrom rest (j + 1)

/-- The filter predicate of `get_tagged_nodes`. -/
def taggedP (n : Node) : Bool :=
  n.bl_idname == "FunctionNodeHashValue" && strEndsWith n.label TAG

/-- Example seed output socket of a group-input node. -/
def exSeedOut : NodeSocket :=
  { name := "Seed", identifier := "Socket_0", type := "INT", hide := false,
    enabled := true, hide_value := false, default_value := 0 }

/-- Example virtual extension socket of a group-input node. -/
def exVirtual : NodeSocket :=
  { name := "", identifier := "__extend__", type := "CUSTOM", hide := false,
    enabled := true, hide_value := false, default_value := 0 }

/-- Example seed input socket of a consumer node. -/
def exSeedIn : NodeSocket :=
  { name := "Seed", identifier := "Seed_in", type := "INT", hide := false,
    enabled := true, hide_value := false, default_value := 0 }

/-- Example hidden socket (for the socket-location witness). -/
def exHiddenSock : NodeSocket :=
  { name := "W", identifier := "W_id", type := "VALUE", hide := true,
    enabled := true, hide_value := false, default_value := 0 }

/-- Example group-input node with one seed output. -/
def exGroupInputNode : Node :=
  { id := 1, bl_idname := "NodeGroupInput", type := "GROUP_INPUT", label := "",
    hide := false, select := false, width := 140, parent := none,
    locx := 0, locy := 0, dimx := 140, dimy := 100,
    inputs := [], outputs := [exSeedOut, exVirtual], data_type := "" }

/-- Example consumer node with one seed input and one hidden input. -/
def exConsumerNode : Node :=
  { id := 2, bl_idname := "GeometryNodeDistributePointsOnFaces", type := "",
    label := "", hide := false, select := false, width := 140, parent := none,
    locx := 300, locy := 0, dimx := 140, dimy := 100,
    inputs := [exSeedIn, exHiddenSock], outputs := [], data_type := "" }

/-- Example tree with one qualifying seed link. -/
def exTree : NodeTree :=
  { nodes := [exGroupInputNode, exConsumerNode],
    links := [⟨1, "Socket_0", 2, "Seed_in"⟩],
    interface := some [⟨"SOCKET", "INPUT", "Seed", "Socket_0", "INT"⟩],
    props := some 0,
    next_id := 3 }

/-- Example tree without an interface (a precondition-failure input). -/
def exTreeNoIface : NodeTree :=
  { nodes := [exConsumerNode],
    links := [],
    interface := none,
    props := some 5,
    next_id := 3 }

/-- Example tagged hash node whose assigned index (5) does not match its
position order (it is the only tagged node, so position order would
assign 0). -/
def exStaleTagged : Node :=
  { id := 1, bl_idname := "FunctionNodeHashValue", type := "HASH_VALUE",
    label := "5 AutoSeedRandomizer", hide := true, select := false, width := 100,
    parent := none, locx := 0, locy := 0, dimx := 100, dimy := 40,
    inputs :=
      [ { name := "Value", identifier := "Value", type := "INT", hide := false,
          enabled := true, hide_value := false, default_value := 5 },
        { name := "Seed", identifier := "Seed", type := "INT", hide := false,
          enabled := true, hide_value := false, default_value := 0 } ],
    outputs :=
      [ { name := "Hash", identifier := "Hash", type := "INT", hide := false,
          enabled := true, hide_value := false, default_value := 0 } ],
    data_type := "INT" }

/-- Example tree holding only a stale tagged node (index 5 at position
0) and no qualifying seed links. -/
def exStaleTree : NodeTree :=
  { nodes := [exStaleTagged],
    links := [],
    interface := some [⟨"SOCKET", "INPUT", "Seed", "Socket_0", "INT"⟩],
    props := some 6,
    next_id := 2 }

/-- The hash node inserted by a `RandomizeSeed` run on `exTree`. -/
def exRNAfter : Node :=
  { id := 3, bl_idname := "FunctionNodeHashValue", type := "HASH_VALUE",
    label := "0 AutoSeedRandomizer", hide := true, select := false, width := 100,
    parent := none, locx := 175, locy := -69, dimx := 140, dimy := 100,
    inputs :=
      [ ⟨"Value", "Value", "INT", false, true, false, 0⟩,
        ⟨"Seed", "Seed", "INT", false, true, false, 0⟩ ],
    outputs := [⟨"Hash", "Hash", "INT", false, true, false, 0⟩],
    data_type := "INT" }

/-- The supplier node inserted by a `RandomizeSeed` run on `exTree`. -/
def exGNAfter : Node :=
  { id := 4, bl_idname := "NodeGroupInput", type := "GROUP_INPUT",
    label := "Seed", hide := true, select := false, width := 100, parent := none,
    locx := 50, locy := -69, dimx := 140, dimy := 100,
    inputs := [],
    outputs :=
      [ ⟨"Seed", "Socket_0", "INT", false, true, false, 0⟩,
        ⟨"", "__extend__", "CUSTOM", true, true, false, 0⟩ ],
    data_type := "" }

/-- The tree produced by one `RandomizeSeed` run on `exTree`: the
original supplier is orphaned and removed, and a tagged hash node plus a
fresh group-input supplier take over the rewritten link. -/
def exTreeAfter : NodeTree :=
  { nodes := [exConsumerNode, exRNAfter, exGNAfter],
    links := [⟨4, "Socket_0", 3, "Seed"⟩, ⟨3, "Hash", 2, "Seed_in"⟩],
    interface := some [⟨"SOCKET", "INPUT", "Seed", "Socket_0", "INT"⟩],
    props := some 1,
    next_id := 5 }

/-- The shape of the hash node inserted by one rewrite step: handle
`rid`, tagged label for counter `c`, `Value` input preset to the
(clamped) counter, and the geometry produced by the placement
computation. -/
def rnSpec (c : Int) (rid : Nat) (par : Option Nat) (lx ly : Int) : Node :=
  { id := rid, bl_idname := "FunctionNodeHashValue", type := "HASH_VALUE",
    label := mkTagLabel c, hide := true, select := false, width := bl_width_min,
    parent := par, locx := lx, locy := ly, dimx := 140, dimy := 100,
    inputs :=
      [ { name := "Value", identifier := "Value", type := "INT", hide := false,
          enabled := true, hide_value := false, default_value := clampInt32 c },
        { name := "Seed", identifier := "Seed", type := "INT", hide := false,
          enabled := true, hide_value := false, default_value := 0 } ],
    outputs :=
      [ { name := "Hash", identifier := "Hash", type := "INT", hide := false,
          enabled := true, hide_value := false, default_value := 0 } ],
    data_type := "INT" }

/-- The shape of the group-input node inserted by one rewrite step:
handle `gid`, label `Seed`, outputs instantiated from the interface with
all non-seed sockets hidden. -/
def gnSpec (t : NodeTree) (gid : Nat) (par : Option Nat) (lx ly : Int) : Node :=
  { id := gid, bl_idname := "NodeGroupInput", type := "GROUP_INPUT",
    label := "Seed", hide := true, select := false, width := bl_width_min,
    parent := par, locx := lx, locy := ly, dimx := 140, dimy := 100,
    inputs := [], outputs := hideAdjust (groupInputOutputs t), data_type := "" }

/-- The invariant carried through the rewrite fold: `ls` is the list of
links still to be processed.  It packages the host well-formedness facts
(distinct fresh handles, links joining existing sockets, inputless
group-input nodes, single-link inputs), the interface fact making the
`outputs["Seed"]` lookup succeed, and the facts about `ls` itself: its
links are present, qualify, are the only links into their destination
sockets, have pairwise distinct destinations — and every qualifying
link of the tree is one of them. -/
def linkToValid (t : NodeTree) (x : Link) : Bool :=
  match t.findNode x.to_node with
  | some a => (a.findInput x.to_socket).isSome
  | none => false

def linkFromValid (t : NodeTree) (x : Link) : Bool :=
  match t.findNode x.from_node with
  | some a => (a.findOutput x.from_socket).isSome
  | none => false

def StepOK (t : NodeTree) (ls : List Link) : Prop :=
  ((t.nodes.map (fun n => n.id)).Nodup) ∧
  (∀ n ∈ t.nodes, n.id < t.next_id) ∧
  (hasSeedInterfaceInput t = true) ∧
  (∀ n ∈ t.nodes, n.bl_idname = "NodeGroupInput" → n.inputs = []) ∧
  (∀ x ∈ t.links, linkToValid t x = true) ∧
  (∀ x ∈ t.links, linkFromValid t x = true) ∧
  (∀ x ∈ ls, x ∈ t.links) ∧
  (∀ x ∈ ls, seedLinkQualifies t x = true) ∧
  (∀ x ∈ ls, ∀ y ∈ t.links,
    y.to_node = x.to_node ∧ y.to_socket = x.to_socket → y = x) ∧
  (List.Pairwise (fun a b =>
    ¬(a.to_node = b.to_node ∧ a.to_socket = b.to_socket)) ls) ∧
  (∀ x ∈ t.links, seedLinkQualifies t x = true → x ∈ ls)

/-- The number of links one invocation rewrites. -/
def numSeedLinks (t : NodeTree) : Nat :=
  (t.links.filter (seedLinkQualifies t)).length

/-- Specification of a sequence of invocations threading the persisted
counter `c`: each run succeeds, advances the counter by the number of
its qualifying links, and appends tagged nodes labelled with the next
consecutive indices. -/
def RunsOK : List NodeTree → Int → Prop
  | [], _ => True
  | t :: ts, c =>
    ∃ t' m, RandomizeSeed_execute_node_tree t = .ok (t', m) ∧
      t'.props = some (c + numSeedLinks t) ∧
      (get_tagged_nodes t').map (fun n => n.label) =
        (get_tagged_nodes t).map (fun n => n.label) ++
          (List.range (numSeedLinks t)).map (fun i : ℕ => mkTagLabel (c + (i : Int))) ∧
      RunsOK ts (c + numSeedLinks t)

/-- The indices assigned across a sequence of invocations starting at
counter `c`, in assignment order. -/
def seqIndices : List NodeTree → Int → List Int
  | [], _ => []
  | t :: ts, c =>
    (List.range (numSeedLinks t)).map (fun i : ℕ => c + (i : Int)) ++
      seqIndices ts (c + numSeedLinks t)

/-- Total number of links rewritten across a sequence. -/
def sumK : List NodeTree → Nat
  | [] => 0
  | t :: ts => numSeedLinks t + sumK ts

end Rand

namespace Match

/-- Example source interface socket: a float socket with populated value
attributes. -/
def exSrcSocket : IfaceSocket :=
  { identifier := "Socket_A", attribute_domain := "POINT",
    default_attribute_name := "", default_input := "VALUE",
    description := "outer seed", hide_in_modifier := false, hide_value := false,
    is_panel_toggle := false, menu_expanded := false, name := "Amount",
    socket_type := "NodeSocketFloat", structure_type := "AUTO",
    default_value := some (.float 1), min_value := some (.float 0),
    max_value := some (.float 10), subtype := some (.str "NONE"),
    dimensions := none }

/-- Example destination interface socket of the same runtime value types
as `exSrcSocket` but with different values. -/
def exDstSocket : IfaceSocket :=
  { identifier := "Socket_B", attribute_domain := "CORNER",
    default_attribute_name := "", default_input := "VALUE",
    description := "", hide_in_modifier := false, hide_value := false,
    is_panel_toggle := false, menu_expanded := false, name := "",
    socket_type := "NodeSocketFloat", structure_type := "AUTO",
    default_value := some (.float 0), min_value := some (.float (-5)),
    max_value := some (.float 5), subtype := some (.str "NONE"),
    dimensions := none }

end Match

/-! ## Theorems -/

theorem strEndsWith_append (a b : String) : Rand.strEndsWith (a ++ b) b = true := by
  simp only [Rand.strEndsWith, String.data_append, decide_eq_true_eq]
  exact List.suffix_append a.data b.data

theorem mkTagLabel_endsWith (c : Int) :
    Rand.strEndsWith (Rand.mkTagLabel c) Rand.TAG = true := by
  simpa only [Rand.mkTagLabel, String.append_assoc] using
    strEndsWith_append (toString c ++ " ") Rand.TAG

theorem socketLocOut_hidden_none (s : Rand.NodeSocket) (x : Int) :
    ∀ (socks : List Rand.NodeSocket) (y : Int),
      s ∈ socks →
      (socks.map (fun a => a.identifier)).Nodup →
      Rand.is_socket_hidden s = true →
      Rand.socketLocOut s.identifier x socks y = none := by
  intro socks
  induction socks with
  | nil => intro y h; simp at h
  | cons a rest ih =>
    intro y hmem hnodup hhid
    simp only [List.map_cons, List.nodup_cons] at hnodup
    rcases List.mem_cons.mp hmem with rfl | hrest
    · simp [Rand.socketLocOut, hhid]
    · by_cases hida : a.identifier = s.identifier
      · exact absurd (hida ▸ List.mem_map.mpr ⟨s, hrest, rfl⟩) hnodup.1
      · cases ha : Rand.is_socket_hidden a <;>
          simp [Rand.socketLocOut, ha, hida, ih _ hrest hnodup.2 hhid]

theorem socketLocIn_hidden_none (t : Rand.NodeTree) (n : Rand.Node)
    (s : Rand.NodeSocket) (x : Int) :
    ∀ (socks : List Rand.NodeSocket) (y : Int),
      s ∈ socks →
      (socks.map (fun a => a.identifier)).Nodup →
      Rand.is_socket_hidden s = true →
      Rand.socketLocIn t n s.identifier x socks y = none := by
  intro socks
  induction socks with
  | nil => intro y h; simp at h
  | cons a rest ih =>
    intro y hmem hnodup hhid
    simp only [List.map_cons, List.nodup_cons] at hnodup
    rcases List.mem_cons.mp hmem with rfl | hrest
    · simp [Rand.socketLocIn, hhid]
    · by_cases hida : a.identifier = s.identifier
      · exact absurd (hida ▸ List.mem_map.mpr ⟨s, hrest, rfl⟩) hnodup.1
      · cases ha : Rand.is_socket_hidden a <;>
          simp [Rand.socketLocIn, ha, hida, ih _ hrest hnodup.2 hhid]

/-- C10: `get_socket_location` yields no position whenever the owning
node is collapsed (`hide`) or the socket is hidden or disabled, and a
coordinate pair implies a visible socket on an un-collapsed node; the
function is total (the Python `try`/`except` converts any internal
exception to `None`), so it never raises to its caller. -/
theorem getSocketLocation_hidden_none (t : Rand.NodeTree) (n : Rand.Node)
    (s : Rand.NodeSocket) (io abs : Bool)
    (hmem : s ∈ (if io then n.inputs else n.outputs))
    (hnodup : (((if io then n.inputs else n.outputs)).map
      (fun a => a.identifier)).Nodup) :
    ((n.hide = true ∨ Rand.is_socket_hidden s = true) →
      Rand.get_socket_location t n s io abs = none) ∧
    ((Rand.get_socket_location t n s io abs).isSome →
      n.hide = false ∧ Rand.is_socket_hidden s = false) := by
  have hnone : (n.hide = true ∨ Rand.is_socket_hidden s = true) →
      Rand.get_socket_location t n s io abs = none := by
    intro h
    by_cases hh : n.hide = true
    · simp [Rand.get_socket_location, hh]
    · have hs : Rand.is_socket_hidden s = true := by
        rcases h with h | h
        · exact absurd h hh
        · exact h
      cases io with
      | true =>
        simp only [if_true] at hmem hnodup
        have hmem' : s ∈ n.inputs.reverse := List.mem_reverse.mpr hmem
        have hnodup' : (n.inputs.reverse.map (fun a => a.identifier)).Nodup := by
          rw [List.map_reverse]
          exact List.nodup_reverse.mpr hnodup
        simp [Rand.get_socket_location, hh,
          socketLocIn_hidden_none t n s _ _ _ hmem' hnodup' hs]
      | false =>
        simp only [Bool.false_eq_true, if_false] at hmem hnodup
        simp [Rand.get_socket_location, hh,
          socketLocOut_hidden_none s _ _ _ hmem hnodup hs]
  refine ⟨hnone, ?_⟩
  intro hsome
  by_cases hh : n.hide = true
  · rw [hnone (Or.inl hh)] at hsome; simp at hsome
  · by_cases hs : Rand.is_socket_hidden s = true
    · rw [hnone (Or.inr hs)] at hsome; simp at hsome
    · exact ⟨by simpa using hh, by simpa using hs⟩

theorem getSocketLocation_hidden_none_witness :
    Rand.get_socket_location Rand.exTree Rand.exConsumerNode Rand.exHiddenSock
      true true = none :=
  (getSocketLocation_hidden_none Rand.exTree Rand.exConsumerNode Rand.exHiddenSock
    true true (by decide) (by decide)).1 (Or.inr (by decide))

/-- C4: the operator dispatch never completes: whatever
`BaseNodeTreeHandler._execute` produces (the poll-failure message string
or the fall-through `None`), `BaseOperator.execute` reads `.message` on
it and raises `AttributeError`, so `execute` cannot return the cancel or
finished outcome the specification describes. -/
theorem randomizeSeed_execute_always_raises (t : Rand.NodeTree) :
    ∃ e, Rand.RandomizeSeed_execute t = Except.error e := by
  unfold Rand.RandomizeSeed_execute Rand.RandomizeSeed_handler_execute
  cases hp : Rand.RandomizeSeed_poll_node_tree t with
  | some msg => exact ⟨_, rfl⟩
  | none =>
    cases he : Rand.RandomizeSeed_execute_node_tree t with
    | error e => exact ⟨e, rfl⟩
    | ok r => exact ⟨_, rfl⟩

/-- C5: on every precondition failure (poll message `m`), the handler
layer aborts before touching the graph: the tree (nodes, links and
persisted counter) is returned unchanged together with the single
message, but the dispatch layer then raises `AttributeError` on the
string result instead of surfacing it as a clean cancel. -/
theorem randomizeSeed_precondition_clean_abort (t : Rand.NodeTree) (m : String)
    (h : Rand.RandomizeSeed_poll_node_tree t = some m) :
    Rand.RandomizeSeed_handler_execute t = .ok (t, .strRes m) ∧
    Rand.RandomizeSeed_execute t =
      .error "AttributeError: str object has no attribute message" := by
  constructor
  · unfold Rand.RandomizeSeed_handler_execute
    rw [h]
  · unfold Rand.RandomizeSeed_execute Rand.RandomizeSeed_handler_execute
    rw [h]
    rfl

theorem randomizeSeed_precondition_clean_abort_witness :
    Rand.RandomizeSeed_handler_execute Rand.exTreeNoIface =
      .ok (Rand.exTreeNoIface, .strRes "Node tree has no interface") ∧
    Rand.RandomizeSeed_execute Rand.exTreeNoIface =
      .error "AttributeError: str object has no attribute message" :=
  randomizeSeed_precondition_clean_abort Rand.exTreeNoIface
    "Node tree has no interface" (by decide)

theorem copyAttr_eq (a b : Option Match.PyVal) : Match.copyAttr a b = a := by
  cases a <;> cases b <;> simp [Match.copyAttr, Match.valueIsTypeOfValue]

/-- C6: `copy_socket_properties` always copies the shared metadata
fields, but never copies `default_value`, `min_value`, `max_value`,
`subtype` or `dimensions` — not even when both sockets expose the
attribute with matching runtime value types — because the guard compares
the destination value to the `type` object of the source value with
`is`, which is false for every pair of attribute values. -/
theorem copySocketProperties_value_attrs_never_copied
    (source target : Match.IfaceSocket) :
    (Match.copy_socket_properties source target).default_value = target.default_value ∧
    (Match.copy_socket_properties source target).min_value = target.min_value ∧
    (Match.copy_socket_properties source target).max_value = target.max_value ∧
    (Match.copy_socket_properties source target).subtype = target.subtype ∧
    (Match.copy_socket_properties source target).dimensions = target.dimensions ∧
    (Match.copy_socket_properties source target).name = source.name ∧
    (Match.copy_socket_properties source target).socket_type = source.socket_type ∧
    (Match.copy_socket_properties source target).attribute_domain =
      source.attribute_domain ∧
    (Match.copy_socket_properties source target).description = source.description := by
  simp only [Match.copy_socket_properties]
  split <;> simp [copyAttr_eq]

/-- C7 counterexample: on a tree whose only tagged hash node carries
assigned index 5 while position order would assign 0, invoking
`RandomizeSeed` returns the tree unchanged with the informational
message — the stale label is not renumbered or resynchronised. -/
theorem randomizeSeed_does_not_renumber_counterexample :
    Rand.RandomizeSeed_execute_node_tree Rand.exStaleTree =
      .ok (Rand.exStaleTree, some "No seed links found") ∧
    (Rand.get_tagged_nodes Rand.exStaleTree).map (fun n => n.label) =
      ["5 AutoSeedRandomizer"] := by
  constructor
  · rfl
  · decide

theorem relabelNode_id (m : Rand.Node) (c : Int) :
    (Rand.relabelNode m c).id = m.id := rfl

theorem applyAssign_id (σ : List (Nat × Int)) (m : Rand.Node) :
    (Rand.applyAssign σ m).id = m.id := by
  unfold Rand.applyAssign
  cases σ.find? (fun kv => kv.1 == m.id) <;> rfl

theorem applyAssign_nil (m : Rand.Node) : Rand.applyAssign [] m = m := rfl

theorem applyAssign_cons_ne (k : Nat) (v : Int) (σ : List (Nat × Int))
    (m : Rand.Node) (h : ¬(k = m.id)) :
    Rand.applyAssign ((k, v) :: σ) m = Rand.applyAssign σ m := by
  unfold Rand.applyAssign
  rw [List.find?_cons_of_neg _ (by simpa using h)]

theorem find?_id_map (l : List Rand.Node) (f : Rand.Node → Rand.Node)
    (hf : ∀ m, (f m).id = m.id) (i : Nat) :
    (l.map f).find? (fun n => n.id == i) = (l.find? (fun n => n.id == i)).map f := by
  rw [List.find?_map]
  have hp : ((fun n => n.id == i) ∘ f) = fun n => n.id == i := by
    funext m
    simp [Function.comp, hf]
  rw [hp]

theorem find?_id_of_mem_nodup {l : List Rand.Node} {n : Rand.Node}
    (hmem : n ∈ l) (hnodup : (l.map (fun m => m.id)).Nodup) :
    l.find? (fun m => m.id == n.id) = some n := by
  induction l with
  | nil => simp at hmem
  | cons a rest ih =>
    simp only [List.map_cons, List.nodup_cons] at hnodup
    rcases List.mem_cons.mp hmem with rfl | hrest
    · simp
    · have hne : ¬(a.id = n.id) := fun h =>
        hnodup.1 (h ▸ List.mem_map.mpr ⟨n, hrest, rfl⟩)
      rw [List.find?_cons_of_neg _ (by simpa using hne)]
      exact ih hrest hnodup.2

theorem assignFrom_find?_none (l : List Rand.Node) (i : Nat)
    (h : ∀ m ∈ l, ¬(m.id = i)) :
    ∀ j, (Rand.assignFrom l j).find? (fun kv => kv.1 == i) = none := by
  induction l with
  | nil => intro j; rfl
  | cons a rest ih =>
    intro j
    rw [Rand.assignFrom, List.find?_cons_of_neg _
      (by simpa using h a (List.mem_cons_self a rest))]
    exact ih (fun m hm => h m (List.mem_cons_of_mem a hm)) (j + 1)

theorem resetStep_foldlM (t0 : Rand.NodeTree)
    (hids : (t0.nodes.map (fun m => m.id)).Nodup) :
    ∀ (rem : List Rand.Node) (σ : List (Nat × Int)) (j : Int),
      (∀ n ∈ rem, n ∈ t0.nodes) →
      (∀ n ∈ rem, (Rand.outputByName n.inputs "Value").isSome) →
      ((rem.map (fun m => m.id)).Nodup) →
      (∀ n ∈ rem, σ.find? (fun kv => kv.1 == n.id) = none) →
      List.foldlM Rand.resetStep
        ({ t0 with nodes := t0.nodes.map (Rand.applyAssign σ) }, j) rem
        = .ok ({ t0 with
            nodes := t0.nodes.map (Rand.applyAssign (σ ++ Rand.assignFrom rem j)) },
          j + rem.length) := by
  intro rem
  induction rem with
  | nil =>
    intro σ j _ _ _ _
    simp [Rand.assignFrom, List.foldlM_nil, pure, Except.pure]
  | cons n rest ih =>
    intro σ j hmem hval hnodup hσ
    have hn0 : n ∈ t0.nodes := hmem n (List.mem_cons_self n rest)
    have hσn : σ.find? (fun kv => kv.1 == n.id) = none :=
      hσ n (List.mem_cons_self n rest)
    have hfind : ({ t0 with nodes := t0.nodes.map (Rand.applyAssign σ) } :
        Rand.NodeTree).findNode n.id = some n := by
      unfold Rand.NodeTree.findNode
      rw [show ({ t0 with nodes := t0.nodes.map (Rand.applyAssign σ) } :
            Rand.NodeTree).nodes = t0.nodes.map (Rand.applyAssign σ) from rfl,
        find?_id_map _ _ (applyAssign_id σ) n.id,
        find?_id_of_mem_nodup hn0 hids]
      simp [Rand.applyAssign, hσn]
    have hval' : (Rand.outputByName n.inputs "Value").isSome :=
      hval n (List.mem_cons_self n rest)
    obtain ⟨v, hv⟩ := Option.isSome_iff_exists.mp hval'
    simp only [List.map_cons, List.nodup_cons] at hnodup
    have hstep : Rand.resetStep
        ({ t0 with nodes := t0.nodes.map (Rand.applyAssign σ) }, j) n =
        .ok ({ t0 with
          nodes := t0.nodes.map (Rand.applyAssign (σ ++ [(n.id, j)])) }, j + 1) := by
      unfold Rand.resetStep
      rw [hfind]
      simp only [hv]
      have hnodes : (t0.nodes.map (Rand.applyAssign σ)).map
          (fun m => if m.id == n.id then Rand.relabelNode m j else m) =
          t0.nodes.map (Rand.applyAssign (σ ++ [(n.id, j)])) := by
        rw [List.map_map]
        apply List.map_congr_left
        intro m _
        simp only [Function.comp]
        by_cases hid : m.id = n.id
        · have hσm : σ.find? (fun kv => kv.1 == m.id) = none := by
            rw [hid]; exact hσn
          have h1 : Rand.applyAssign σ m = m := by
            simp [Rand.applyAssign, hσm]
          have h2 : Rand.applyAssign (σ ++ [(n.id, j)]) m = Rand.relabelNode m j := by
            unfold Rand.applyAssign
            rw [List.find?_append, hσm]
            simp [hid]
          rw [h1, h2, if_pos (by simpa using hid)]
        · have h2 : Rand.applyAssign (σ ++ [(n.id, j)]) m = Rand.applyAssign σ m := by
            unfold Rand.applyAssign
            rw [List.find?_append]
            cases hσm : σ.find? (fun kv => kv.1 == m.id) with
            | some kv => simp
            | none =>
              simp only [Option.none_or]
              rw [List.find?_cons_of_neg _ (by simpa using fun h => hid h.symm),
                List.find?_nil]
          rw [h2, if_neg (by simp [applyAssign_id, hid])]
      exact congrArg (fun x => Except.ok (⟨{ t0 with nodes := x }, j + 1⟩ :
        Rand.NodeTree × Int)) hnodes
    rw [List.foldlM_cons, hstep]
    have hrest := ih (σ ++ [(n.id, j)]) (j + 1)
      (fun m hm => hmem m (List.mem_cons_of_mem n hm))
      (fun m hm => hval m (List.mem_cons_of_mem n hm))
      hnodup.2
      (fun m hm => by
        rw [List.find?_append, hσ m (List.mem_cons_of_mem n hm)]
        have hne : ¬(m.id = n.id) := fun h =>
          hnodup.1 (h ▸ List.mem_map.mpr ⟨m, hm, rfl⟩)
        simp only [Option.none_or]
        rw [List.find?_cons_of_neg _ (by simpa using fun h => hne h.symm),
          List.find?_nil])
    show List.foldlM Rand.resetStep
      ({ t0 with nodes := t0.nodes.map (Rand.applyAssign (σ ++ [(n.id, j)])) },
        j + 1) rest = _
    rw [hrest]
    have hc : (j + 1) + (rest.length : Int) = j + (((rest.length + 1 : Nat)) : Int) := by
      push_cast
      ring
    rw [List.append_assoc]
    simp only [List.singleton_append, Rand.assignFrom, List.length_cons, hc]

theorem get_tagged_nodes_eq (t : Rand.NodeTree) :
    Rand.get_tagged_nodes t = t.nodes.filter Rand.taggedP := rfl

theorem taggedP_relabelNode (m : Rand.Node) (c : Int)
    (hm : m.bl_idname = "FunctionNodeHashValue") :
    Rand.taggedP (Rand.relabelNode m c) = true := by
  simp [Rand.taggedP, Rand.relabelNode, hm, mkTagLabel_endsWith]

theorem tagged_labels_after_assign :
    ∀ (nodes : List Rand.Node) (j : Int),
      ((nodes.map (fun m => m.id)).Nodup) →
      (((nodes.map (Rand.applyAssign
          (Rand.assignFrom (nodes.filter Rand.taggedP) j))).filter
            Rand.taggedP).map (fun n => n.label))
        = (List.range (nodes.filter Rand.taggedP).length).map
            (fun i : ℕ => Rand.mkTagLabel (j + (i : Int))) := by
  intro nodes
  induction nodes with
  | nil => intro j _; rfl
  | cons h rest ih =>
    intro j hnodup
    simp only [List.map_cons, List.nodup_cons] at hnodup
    by_cases ht : Rand.taggedP h
    · rw [List.filter_cons_of_pos ht]
      have hbl : h.bl_idname = "FunctionNodeHashValue" := by
        have := ht
        simp only [Rand.taggedP, Bool.and_eq_true, beq_iff_eq] at this
        exact this.1
      have hσh : Rand.applyAssign
          (Rand.assignFrom (h :: rest.filter Rand.taggedP) j) h =
          Rand.relabelNode h j := by
        unfold Rand.applyAssign Rand.assignFrom
        rw [List.find?_cons_of_pos _ (by simp)]
      have htail : rest.map (Rand.applyAssign
          (Rand.assignFrom (h :: rest.filter Rand.taggedP) j)) =
          rest.map (Rand.applyAssign
            (Rand.assignFrom (rest.filter Rand.taggedP) (j + 1))) := by
        apply List.map_congr_left
        intro m hm
        have hne : ¬(h.id = m.id) := fun he =>
          hnodup.1 (he ▸ List.mem_map.mpr ⟨m, hm, rfl⟩)
        exact applyAssign_cons_ne h.id j _ m hne
      rw [List.map_cons, hσh, htail, List.filter_cons_of_pos
        (taggedP_relabelNode h j hbl), List.map_cons, ih (j + 1) hnodup.2]
      rw [List.length_cons, List.range_succ_eq_map, List.map_cons, List.map_map]
      have hhead : (Rand.relabelNode h j).label =
          Rand.mkTagLabel (j + ((0 : ℕ) : Int)) := by
        simp [Rand.relabelNode]
      rw [hhead]
      congr 1
      apply List.map_congr_left
      intro i _
      simp only [Function.comp, Nat.succ_eq_add_one]
      congr 1
      push_cast
      ring
    · rw [List.filter_cons_of_neg ht]
      have hσh : Rand.applyAssign
          (Rand.assignFrom (rest.filter Rand.taggedP) j) h = h := by
        unfold Rand.applyAssign
        rw [assignFrom_find?_none _ h.id (fun m hm => fun he =>
          hnodup.1 (he ▸ List.mem_map.mpr ⟨m, List.mem_of_mem_filter hm, rfl⟩)) j]
      rw [List.map_cons, hσh, List.filter_cons_of_neg ht, ih j hnodup.2]

/-- C7 amended: re-invocation of `RandomizeSeed` does not renumber
tagged nodes (see the counterexample); index resynchronisation is what
the separate `ResetSeeds` operator provides, relabelling every tagged
node with consecutive indices `0..k-1` in node-collection iteration
order — no index is duplicated — and setting the persisted counter to
`k`. -/
theorem resetSeeds_renumbers_without_duplicates (t : Rand.NodeTree) (c0 : Int)
    (hids : (t.nodes.map (fun m => m.id)).Nodup)
    (hprops : t.props = some c0)
    (hvals : ∀ n ∈ Rand.get_tagged_nodes t,
      (Rand.outputByName n.inputs "Value").isSome) :
    ∃ t', Rand.ResetSeeds_execute t = .ok (t', .noneRes) ∧
      t'.links = t.links ∧ t'.interface = t.interface ∧
      t'.props = some (Rand.clampInt32 ((Rand.get_tagged_nodes t).length)) ∧
      (Rand.get_tagged_nodes t').map (fun n => n.label) =
        (List.range (Rand.get_tagged_nodes t).length).map
          (fun i : ℕ => Rand.mkTagLabel ((i : Int))) ∧
      ((List.range (Rand.get_tagged_nodes t).length).map
        (fun i : ℕ => (i : Int))).Nodup := by
  have hmem : ∀ n ∈ Rand.get_tagged_nodes t, n ∈ t.nodes := by
    intro n hn
    rw [get_tagged_nodes_eq] at hn
    exact List.mem_of_mem_filter hn
  have hnd : ((Rand.get_tagged_nodes t).map (fun m => m.id)).Nodup := by
    rw [get_tagged_nodes_eq]
    exact hids.sublist (List.Sublist.map _ (List.filter_sublist t.nodes))
  have hfold := resetStep_foldlM t hids (Rand.get_tagged_nodes t) [] 0
    hmem hvals hnd (fun n _ => rfl)
  have hinit : ({ t with nodes := t.nodes.map (Rand.applyAssign []) } :
      Rand.NodeTree) = t := by
    have h1 : t.nodes.map (Rand.applyAssign []) = t.nodes.map id :=
      List.map_congr_left (fun m _ => applyAssign_nil m)
    rw [h1, List.map_id]
  rw [hinit, List.nil_append] at hfold
  refine ⟨{ t with
      nodes := t.nodes.map (Rand.applyAssign
        (Rand.assignFrom (Rand.get_tagged_nodes t) 0)),
      props := some (Rand.clampInt32 (0 + (Rand.get_tagged_nodes t).length)) },
    ?_, rfl, rfl, ?_, ?_, ?_⟩
  · unfold Rand.ResetSeeds_execute
    rw [hprops]
    show (Rand.get_tagged_nodes t).foldlM Rand.resetStep (t, (0 : Int)) >>= _ = _
    rw [hfold]
    rfl
  · show some (Rand.clampInt32 (0 + ((Rand.get_tagged_nodes t).length : Int))) =
      some (Rand.clampInt32 (((Rand.get_tagged_nodes t).length : Int)))
    norm_num
  · show ((t.nodes.map (Rand.applyAssign
        (Rand.assignFrom (Rand.get_tagged_nodes t) 0))).filter
          Rand.taggedP).map (fun n => n.label) = _
    rw [get_tagged_nodes_eq, tagged_labels_after_assign t.nodes 0 hids]
    apply List.map_congr_left
    intro i _
    congr 1
    simp
  · exact List.Nodup.map Nat.cast_injective (List.nodup_range _)

theorem resetSeeds_renumbers_without_duplicates_witness :
    ∃ t', Rand.ResetSeeds_execute Rand.exStaleTree = .ok (t', .noneRes) ∧
      t'.links = Rand.exStaleTree.links ∧
      t'.interface = Rand.exStaleTree.interface ∧
      t'.props = some (Rand.clampInt32
        ((Rand.get_tagged_nodes Rand.exStaleTree).length)) ∧
      (Rand.get_tagged_nodes t').map (fun n => n.label) =
        (List.range (Rand.get_tagged_nodes Rand.exStaleTree).length).map
          (fun i : ℕ => Rand.mkTagLabel ((i : Int))) ∧
      ((List.range (Rand.get_tagged_nodes Rand.exStaleTree).length).map
        (fun i : ℕ => (i : Int))).Nodup :=
  resetSeeds_renumbers_without_duplicates Rand.exStaleTree 6
    (by decide) (by decide) (by decide)

end BlenderTools

namespace BlenderTools

theorem mkRN_id (t : Rand.NodeTree) (c : Int) (l : Rand.Link) (tn : Rand.Node) :
    (Rand.mkRN t c l tn).id = t.next_id := by
  unfold Rand.mkRN
  cases tn.parent <;> rfl

theorem mkRN_bl_idname (t : Rand.NodeTree) (c : Int) (l : Rand.Link) (tn : Rand.Node) :
    (Rand.mkRN t c l tn).bl_idname = "FunctionNodeHashValue" := by
  unfold Rand.mkRN
  cases tn.parent <;> rfl

theorem mkRN_label (t : Rand.NodeTree) (c : Int) (l : Rand.Link) (tn : Rand.Node) :
    (Rand.mkRN t c l tn).label = Rand.mkTagLabel c := by
  unfold Rand.mkRN
  cases tn.parent <;> rfl

theorem mkRN_inputs (t : Rand.NodeTree) (c : Int) (l : Rand.Link) (tn : Rand.Node) :
    (Rand.mkRN t c l tn).inputs =
      [ { name := "Value", identifier := "Value", type := "INT", hide := false,
          enabled := true, hide_value := false,
          default_value := Rand.clampInt32 c },
        { name := "Seed", identifier := "Seed", type := "INT", hide := false,
          enabled := true, hide_value := false, default_value := 0 } ] := by
  unfold Rand.mkRN
  cases tn.parent <;> rfl

theorem mkRN_outputs (t : Rand.NodeTree) (c : Int) (l : Rand.Link) (tn : Rand.Node) :
    (Rand.mkRN t c l tn).outputs =
      [ { name := "Hash", identifier := "Hash", type := "INT", hide := false,
          enabled := true, hide_value := false, default_value := 0 } ] := by
  unfold Rand.mkRN
  cases tn.parent <;> rfl

theorem mkGN_id (t : Rand.NodeTree) (tn rn : Rand.Node) :
    (Rand.mkGN t tn rn).id = t.next_id + 1 := by
  unfold Rand.mkGN
  cases tn.parent <;> rfl

theorem mkGN_bl_idname (t : Rand.NodeTree) (tn rn : Rand.Node) :
    (Rand.mkGN t tn rn).bl_idname = "NodeGroupInput" := by
  unfold Rand.mkGN
  cases tn.parent <;> rfl

theorem mkGN_label (t : Rand.NodeTree) (tn rn : Rand.Node) :
    (Rand.mkGN t tn rn).label = "Seed" := by
  unfold Rand.mkGN
  cases tn.parent <;> rfl

theorem mkGN_inputs (t : Rand.NodeTree) (tn rn : Rand.Node) :
    (Rand.mkGN t tn rn).inputs = [] := by
  unfold Rand.mkGN
  cases tn.parent <;> rfl

theorem mkGN_outputs (t : Rand.NodeTree) (tn rn : Rand.Node) :
    (Rand.mkGN t tn rn).outputs =
      Rand.hideAdjust (Rand.groupInputOutputs t) := by
  unfold Rand.mkGN
  cases tn.parent <;> rfl

theorem applyLinks_nodes (t : Rand.NodeTree) (l : Rand.Link) (rn gn : Rand.Node)
    (gsid : String) :
    (Rand.applyLinks t l rn gn gsid).nodes = t.nodes ++ [rn, gn] := rfl

theorem applyLinks_next_id (t : Rand.NodeTree) (l : Rand.Link) (rn gn : Rand.Node)
    (gsid : String) :
    (Rand.applyLinks t l rn gn gsid).next_id = t.next_id + 1 + 1 := rfl

theorem applyLinks_interface (t : Rand.NodeTree) (l : Rand.Link) (rn gn : Rand.Node)
    (gsid : String) :
    (Rand.applyLinks t l rn gn gsid).interface = t.interface := rfl

theorem applyLinks_props (t : Rand.NodeTree) (l : Rand.Link) (rn gn : Rand.Node)
    (gsid : String) :
    (Rand.applyLinks t l rn gn gsid).props = t.props := rfl

theorem processLink_eq (t : Rand.NodeTree) (c : Int) (l : Rand.Link)
    (tn fn : Rand.Node) (σ : Rand.NodeSocket)
    (hto : t.findNode l.to_node = some tn)
    (hfrom : t.findNode l.from_node = some fn)
    (hσ : Rand.outputByName (Rand.hideAdjust (Rand.groupInputOutputs t)) "Seed" =
      some σ) :
    Rand.processLink t c l = .ok
      (Rand.orphanClean
        (Rand.applyLinks t l (Rand.mkRN t c l tn)
          (Rand.mkGN t tn (Rand.mkRN t c l tn)) σ.identifier)
        l.from_node fn, c + 1) := by
  have hgout : Rand.outputByName
      (Rand.mkGN t tn (Rand.mkRN t c l tn)).outputs "Seed" = some σ := by
    rw [mkGN_outputs]
    exact hσ
  have hfn2 : (Rand.applyLinks t l (Rand.mkRN t c l tn)
      (Rand.mkGN t tn (Rand.mkRN t c l tn)) σ.identifier).findNode l.from_node =
      some fn := by
    show List.find? _ (t.nodes ++ [_, _]) = some fn
    rw [List.find?_append]
    unfold Rand.NodeTree.findNode at hfrom
    rw [hfrom]
    rfl
  simp only [Rand.processLink, hto, hgout, hfn2]
  rfl

end BlenderTools

namespace BlenderTools

theorem find?_append_left {α : Type} {p : α → Bool} {l1 l2 : List α} {a : α}
    (h : l1.find? p = some a) : (l1 ++ l2).find? p = some a := by
  rw [List.find?_append, h]
  rfl

theorem find?_id_filter_ne {l : List Rand.Node} {i fid : Nat} {m : Rand.Node}
    (hfind : l.find? (fun n => n.id == i) = some m) (hne : ¬(i = fid)) :
    (l.filter (fun n => n.id != fid)).find? (fun n => n.id == i) = some m := by
  induction l with
  | nil => simp at hfind
  | cons a rest ih =>
    by_cases ha : a.id = i
    · rw [List.find?_cons_of_pos _ (by simpa using ha)] at hfind
      have hma : a = m := by simpa using hfind
      subst hma
      rw [List.filter_cons_of_pos (by simp [ha, hne]),
        List.find?_cons_of_pos _ (by simpa using ha)]
    · rw [List.find?_cons_of_neg _ (by simpa using ha)] at hfind
      by_cases hfid : a.id = fid
      · rw [List.filter_cons_of_neg (by simp [hfid])]
        exact ih hfind
      · rw [List.filter_cons_of_pos (by simp [hfid]),
          List.find?_cons_of_neg _ (by simpa using ha)]
        exact ih hfind

theorem seedLinkQualifies_congr (t t' : Rand.NodeTree) (x : Rand.Link)
    (h1 : t'.findNode x.from_node = t.findNode x.from_node)
    (h2 : t'.findNode x.to_node = t.findNode x.to_node) :
    Rand.seedLinkQualifies t' x = Rand.seedLinkQualifies t x := by
  unfold Rand.seedLinkQualifies Rand.isSeedSource Rand.isTaggedDest
  rw [h1, h2]

theorem hasSeedInterfaceInput_congr (t t' : Rand.NodeTree)
    (h : t'.interface = t.interface) :
    Rand.hasSeedInterfaceInput t' = Rand.hasSeedInterfaceInput t := by
  unfold Rand.hasSeedInterfaceInput
  rw [h]

theorem seedLinkQualifies_elim (t : Rand.NodeTree) (x : Rand.Link)
    (h : Rand.seedLinkQualifies t x = true) :
    ∃ fn tn, t.findNode x.from_node = some fn ∧ t.findNode x.to_node = some tn ∧
      fn.bl_idname = "NodeGroupInput" ∧
      (fn.findOutput x.from_socket).isSome ∧
      ¬(tn.bl_idname = "FunctionNodeHashValue" ∧
        Rand.strEndsWith tn.label Rand.TAG = true) := by
  unfold Rand.seedLinkQualifies at h
  rw [Bool.and_eq_true] at h
  obtain ⟨hsrc, htag⟩ := h
  unfold Rand.isSeedSource at hsrc
  split at hsrc
  case _ fn tn h1 h2 =>
    rw [Bool.and_eq_true, Bool.and_eq_true] at hsrc
    obtain ⟨⟨hbl, hmatch⟩, _⟩ := hsrc
    have hout : (fn.findOutput x.from_socket).isSome := by
      cases h3 : fn.findOutput x.from_socket with
      | none => rw [h3] at hmatch; simp at hmatch
      | some fs => simp
    unfold Rand.isTaggedDest at htag
    simp only [h2, Bool.not_eq_true', Bool.and_eq_false_iff, beq_iff_eq] at htag
    refine ⟨fn, tn, h1, h2, by simpa using hbl, hout, ?_⟩
    intro hc
    rcases htag with h4 | h4
    · exact absurd hc.1 (by simpa using h4)
    · rw [hc.2] at h4
      simp at h4
  case _ h1 =>
    exact absurd hsrc (by simp)

theorem hideAdjust_preserves_name (socks : List Rand.NodeSocket)
    (s : Rand.NodeSocket) (hmem : s ∈ socks) :
    ∃ s' ∈ Rand.hideAdjust socks, s'.name = s.name := by
  refine ⟨_, List.mem_map.mpr ⟨s, hmem, rfl⟩, ?_⟩
  dsimp only
  split <;> rfl

theorem gseed_lookup (t : Rand.NodeTree)
    (hseed : Rand.hasSeedInterfaceInput t = true) :
    ∃ σ, Rand.outputByName (Rand.hideAdjust (Rand.groupInputOutputs t)) "Seed" =
      some σ := by
  unfold Rand.hasSeedInterfaceInput at hseed
  cases hi : t.interface with
  | none => rw [hi] at hseed; simp at hseed
  | some items =>
    rw [hi] at hseed
    simp only [List.any_eq_true, Bool.and_eq_true, beq_iff_eq] at hseed
    obtain ⟨it, hitmem, hprops⟩ := hseed
    have hgio : Rand.groupInputOutputs t =
        (items.filter (fun it => it.item_type == "SOCKET" && it.in_out == "INPUT")).map
          (fun it => (⟨it.name, it.identifier, it.stype, false, true, false, 0⟩ :
            Rand.NodeSocket))
        ++ [⟨"", "__extend__", "CUSTOM", false, true, false, 0⟩] := by
      unfold Rand.groupInputOutputs
      rw [hi]
    have hmk : ((⟨it.name, it.identifier, it.stype, false, true, false, 0⟩ :
        Rand.NodeSocket)) ∈ Rand.groupInputOutputs t := by
      rw [hgio]
      exact List.mem_append_left _ (List.mem_map.mpr ⟨it, List.mem_filter.mpr
        ⟨hitmem, by simp [hprops.1.1, hprops.1.2]⟩, rfl⟩)
    obtain ⟨s', hs'mem, hs'name⟩ := hideAdjust_preserves_name _ _ hmk
    rw [← Option.isSome_iff_exists]
    unfold Rand.outputByName
    rw [List.find?_isSome]
    exact ⟨s', hs'mem, by simp [hs'name, hprops.2]⟩

theorem find?_filter_of_find? {α : Type} {p q : α → Bool} {l : List α} {m : α}
    (h : l.find? p = some m) (hq : q m = true) :
    (l.filter q).find? p = some m := by
  induction l with
  | nil => simp at h
  | cons a rest ih =>
    by_cases hpa : p a
    · rw [List.find?_cons_of_pos _ hpa] at h
      have ham : a = m := by simpa using h
      subst ham
      rw [List.filter_cons_of_pos hq, List.find?_cons_of_pos _ hpa]
    · rw [List.find?_cons_of_neg _ hpa] at h
      by_cases hqa : q a
      · rw [List.filter_cons_of_pos hqa, List.find?_cons_of_neg _ hpa]
        exact ih h
      · rw [List.filter_cons_of_neg hqa]
        exact ih h

theorem applyLinks_links (t : Rand.NodeTree) (l : Rand.Link) (rn gn : Rand.Node)
    (gsid : String)
    (hnorid : ∀ x ∈ t.links, ¬(x.to_node = t.next_id))
    (hne : ¬(l.to_node = t.next_id)) :
    (Rand.applyLinks t l rn gn gsid).links =
      t.links.filter (fun x =>
        !(x.to_node == l.to_node && x.to_socket == l.to_socket))
      ++ [⟨t.next_id + 1, gsid, t.next_id, "Seed"⟩,
          ⟨t.next_id, "Hash", l.to_node, l.to_socket⟩] := by
  show ((t.links.filter (fun x => !(x.to_node == t.next_id && x.to_socket == "Seed"))
      ++ [(⟨t.next_id + 1, gsid, t.next_id, "Seed"⟩ : Rand.Link)]).filter
        (fun x => !(x.to_node == l.to_node && x.to_socket == l.to_socket))
      ++ [(⟨t.next_id, "Hash", l.to_node, l.to_socket⟩ : Rand.Link)]) = _
  have h1 : t.links.filter
      (fun x => !(x.to_node == t.next_id && x.to_socket == "Seed")) = t.links :=
    List.filter_eq_self.mpr (fun x hx => by simp [hnorid x hx])
  rw [h1, List.filter_append]
  have h2 : List.filter
      (fun x => !(x.to_node == l.to_node && x.to_socket == l.to_socket))
      [(⟨t.next_id + 1, gsid, t.next_id, "Seed"⟩ : Rand.Link)] =
      [⟨t.next_id + 1, gsid, t.next_id, "Seed"⟩] := by
    simp only [List.filter_cons, List.filter_nil]
    rw [if_pos]
    simp only [Bool.not_eq_true']
    rw [Bool.and_eq_false_iff]
    left
    simpa using fun hcon => hne hcon.symm
  rw [h2, List.append_assoc]
  rfl

theorem linkToValid_elim (t : Rand.NodeTree) (x : Rand.Link)
    (h : Rand.linkToValid t x = true) :
    ∃ a, t.findNode x.to_node = some a ∧ (a.findInput x.to_socket).isSome := by
  cases hf : t.findNode x.to_node with
  | none => simp [Rand.linkToValid, hf] at h
  | some a =>
    refine ⟨a, rfl, ?_⟩
    simpa [Rand.linkToValid, hf] using h

theorem linkToValid_intro (t : Rand.NodeTree) (x : Rand.Link) (a : Rand.Node)
    (hf : t.findNode x.to_node = some a)
    (hi : (a.findInput x.to_socket).isSome) : Rand.linkToValid t x = true := by
  simp [Rand.linkToValid, hf, hi]

theorem linkFromValid_elim (t : Rand.NodeTree) (x : Rand.Link)
    (h : Rand.linkFromValid t x = true) :
    ∃ a, t.findNode x.from_node = some a ∧ (a.findOutput x.from_socket).isSome := by
  cases hf : t.findNode x.from_node with
  | none => simp [Rand.linkFromValid, hf] at h
  | some a =>
    refine ⟨a, rfl, ?_⟩
    simpa [Rand.linkFromValid, hf] using h

theorem linkFromValid_intro (t : Rand.NodeTree) (x : Rand.Link) (a : Rand.Node)
    (hf : t.findNode x.from_node = some a)
    (hi : (a.findOutput x.from_socket).isSome) : Rand.linkFromValid t x = true := by
  simp [Rand.linkFromValid, hf, hi]

theorem post_StepOK (t t' : Rand.NodeTree) (c : Int) (l : Rand.Link)
    (ls : List Rand.Link) (RN GN : Rand.Node) (gsid : String)
    (hfresh : ∀ n ∈ t.nodes, n.id < t.next_id)
    (hiface : Rand.hasSeedInterfaceInput t = true)
    (hginp : ∀ n ∈ t.nodes, n.bl_idname = "NodeGroupInput" → n.inputs = [])
    (htov : ∀ x ∈ t.links, ∃ a, t.findNode x.to_node = some a ∧
      (a.findInput x.to_socket).isSome)
    (hfromv : ∀ x ∈ t.links, ∃ a, t.findNode x.from_node = some a ∧
      (a.findOutput x.from_socket).isSome)
    (hmem : ∀ x ∈ l :: ls, x ∈ t.links)
    (hqual : ∀ x ∈ l :: ls, Rand.seedLinkQualifies t x = true)
    (huniq : ∀ x ∈ l :: ls, ∀ y ∈ t.links,
      y.to_node = x.to_node ∧ y.to_socket = x.to_socket → y = x)
    (hpw : List.Pairwise (fun a b =>
      ¬(a.to_node = b.to_node ∧ a.to_socket = b.to_socket)) (l :: ls))
    (hcomp : ∀ x ∈ t.links, Rand.seedLinkQualifies t x = true → x ∈ l :: ls)
    (hlinks : t'.links = t.links.filter (fun x =>
        !(x.to_node == l.to_node && x.to_socket == l.to_socket))
      ++ [⟨t.next_id + 1, gsid, t.next_id, "Seed"⟩,
          ⟨t.next_id, "Hash", l.to_node, l.to_socket⟩])
    (hnext : t'.next_id = t.next_id + 1 + 1)
    (hifeq : t'.interface = t.interface)
    (hnodes_mem : ∀ n ∈ t'.nodes, n ∈ t.nodes ∨ n = RN ∨ n = GN)
    (hnodes_ids : (t'.nodes.map (fun n => n.id)).Nodup)
    (hfindL : ∀ x ∈ t.links, x ∈ t'.links →
      t'.findNode x.from_node = t.findNode x.from_node ∧
      t'.findNode x.to_node = t.findNode x.to_node)
    (hfind_to : t'.findNode l.to_node = t.findNode l.to_node)
    (hfind_rid : t'.findNode t.next_id = some RN)
    (hfind_gid : t'.findNode (t.next_id + 1) = some GN)
    (hRNid : RN.id = t.next_id)
    (hRNbl : RN.bl_idname = "FunctionNodeHashValue")
    (hRNlabel : RN.label = Rand.mkTagLabel c)
    (hRNinputs : RN.inputs =
      [ ⟨"Value", "Value", "INT", false, true, false, Rand.clampInt32 c⟩,
        ⟨"Seed", "Seed", "INT", false, true, false, 0⟩ ])
    (hRNoutputs : RN.outputs = [⟨"Hash", "Hash", "INT", false, true, false, 0⟩])
    (hGNid : GN.id = t.next_id + 1)
    (hGNinputs : GN.inputs = [])
    (hgout : (GN.findOutput gsid).isSome) :
    Rand.StepOK t' ls := by
  have hto_lt : l.to_node < t.next_id := by
    obtain ⟨a, hfa, _⟩ := htov l (hmem l (List.mem_cons_self l ls))
    have h1 : a ∈ t.nodes := List.mem_of_find?_eq_some hfa
    have h2 : a.id = l.to_node := by simpa using List.find?_some hfa
    have := hfresh a h1
    omega
  have hbound : ∀ x ∈ t.links, x.to_node < t.next_id ∧ x.from_node < t.next_id := by
    intro x hx
    constructor
    · obtain ⟨a, hfa, _⟩ := htov x hx
      have h1 : a ∈ t.nodes := List.mem_of_find?_eq_some hfa
      have h2 : a.id = x.to_node := by simpa using List.find?_some hfa
      have := hfresh a h1
      omega
    · obtain ⟨a, hfa, _⟩ := hfromv x hx
      have h1 : a ∈ t.nodes := List.mem_of_find?_eq_some hfa
      have h2 : a.id = x.from_node := by simpa using List.find?_some hfa
      have := hfresh a h1
      omega
  have hmem' : ∀ x ∈ ls, x ∈ t'.links := by
    intro x hx
    have hxt : x ∈ t.links := hmem x (List.mem_cons_of_mem l hx)
    rw [hlinks]
    apply List.mem_append_left
    apply List.mem_filter.mpr
    refine ⟨hxt, ?_⟩
    have hne := (List.pairwise_cons.mp hpw).1 x hx
    simp only [Bool.not_eq_true', Bool.and_eq_false_iff, beq_eq_false_iff_ne, ne_eq]
    by_cases h1 : x.to_node = l.to_node
    · right
      intro h2
      exact hne ⟨h1.symm, h2.symm⟩
    · left
      exact h1
  refine ⟨hnodes_ids, ?_, ?_, ?_, ?_, ?_, hmem', ?_, ?_, ?_, ?_⟩
  · -- fresh handles
    intro n hn
    rw [hnext]
    rcases hnodes_mem n hn with h | h | h
    · have := hfresh n h
      omega
    · rw [h, hRNid]
      omega
    · rw [h, hGNid]
      omega
  · -- interface
    rw [hasSeedInterfaceInput_congr t t' hifeq]
    exact hiface
  · -- group inputs have no inputs
    intro n hn hbl
    rcases hnodes_mem n hn with h | h | h
    · exact hginp n h hbl
    · rw [h, hRNbl] at hbl
      simp at hbl
    · rw [h]
      exact hGNinputs
  · -- to-side validity
    intro x hx
    rw [hlinks] at hx
    rcases List.mem_append.mp hx with hxf | hnew
    · have hxt : x ∈ t.links := List.mem_of_mem_filter hxf
      obtain ⟨a, hfa, hia⟩ := htov x hxt
      have hstab := (hfindL x hxt (by
        rw [hlinks]; exact List.mem_append_left _ hxf)).2
      exact linkToValid_intro t' x a (by rw [hstab]; exact hfa) hia
    · rcases List.mem_cons.mp hnew with h1 | h1
      · refine linkToValid_intro t' x RN (by rw [h1]; exact hfind_rid) ?_
        rw [h1]
        unfold Rand.Node.findInput
        rw [hRNinputs]
        simp
      · have h2 : x = ⟨t.next_id, "Hash", l.to_node, l.to_socket⟩ := by
          simpa using h1
        subst h2
        obtain ⟨a, hfa, hia⟩ := htov l (hmem l (List.mem_cons_self l ls))
        refine linkToValid_intro t' _ a ?_ hia
        show t'.findNode l.to_node = some a
        rw [hfind_to]
        exact hfa
  · -- from-side validity
    intro x hx
    rw [hlinks] at hx
    rcases List.mem_append.mp hx with hxf | hnew
    · have hxt : x ∈ t.links := List.mem_of_mem_filter hxf
      obtain ⟨a, hfa, hia⟩ := hfromv x hxt
      have hstab := (hfindL x hxt (by
        rw [hlinks]; exact List.mem_append_left _ hxf)).1
      exact linkFromValid_intro t' x a (by rw [hstab]; exact hfa) hia
    · rcases List.mem_cons.mp hnew with h1 | h1
      · exact linkFromValid_intro t' x GN (by rw [h1]; exact hfind_gid)
          (by rw [h1]; exact hgout)
      · have h2 : x = ⟨t.next_id, "Hash", l.to_node, l.to_socket⟩ := by
          simpa using h1
        subst h2
        refine linkFromValid_intro t' _ RN hfind_rid ?_
        unfold Rand.Node.findOutput
        rw [hRNoutputs]
        simp
  · -- remaining links still qualify
    intro x hx
    have hxt : x ∈ t.links := hmem x (List.mem_cons_of_mem l hx)
    have hstab := hfindL x hxt (hmem' x hx)
    rw [seedLinkQualifies_congr t t' x hstab.1 hstab.2]
    exact hqual x (List.mem_cons_of_mem l hx)
  · -- uniqueness of destination
    intro x hx y hy hsame
    rw [hlinks] at hy
    rcases List.mem_append.mp hy with hyf | hnew
    · exact huniq x (List.mem_cons_of_mem l hx) y (List.mem_of_mem_filter hyf) hsame
    · exfalso
      have hxt : x ∈ t.links := hmem x (List.mem_cons_of_mem l hx)
      rcases List.mem_cons.mp hnew with h1 | h1
      · have h2 : x.to_node = t.next_id := by rw [← hsame.1, h1]
        have h3 := (hbound x hxt).1
        omega
      · have h2 : y = ⟨t.next_id, "Hash", l.to_node, l.to_socket⟩ := by
          simpa using h1
        have hne := (List.pairwise_cons.mp hpw).1 x hx
        apply hne
        constructor
        · rw [← hsame.1, h2]
        · rw [← hsame.2, h2]
  · -- pairwise
    exact List.Pairwise.of_cons hpw
  · -- completeness
    intro x hx hq'
    rw [hlinks] at hx
    rcases List.mem_append.mp hx with hxf | hnew
    · have hxt : x ∈ t.links := List.mem_of_mem_filter hxf
      have hstab := hfindL x hxt (by
        rw [hlinks]; exact List.mem_append_left _ hxf)
      rw [seedLinkQualifies_congr t t' x hstab.1 hstab.2] at hq'
      rcases List.mem_cons.mp (hcomp x hxt hq') with h1 | h1
      · exfalso
        have := (List.mem_filter.mp hxf).2
        rw [h1] at this
        simp at this
      · exact h1
    · exfalso
      rcases List.mem_cons.mp hnew with h1 | h1
      · -- x is the link into the new hash node: excluded as tagged destination
        unfold Rand.seedLinkQualifies at hq'
        rw [Bool.and_eq_true] at hq'
        have htag : Rand.isTaggedDest t' x = true := by
          unfold Rand.isTaggedDest
          rw [h1]
          show (match t'.findNode t.next_id with
            | some tn => tn.bl_idname == "FunctionNodeHashValue" &&
                Rand.strEndsWith tn.label Rand.TAG
            | none => false) = true
          rw [hfind_rid]
          simp [hRNbl, hRNlabel, mkTagLabel_endsWith]
        rw [htag] at hq'
        simp at hq'
      · -- x is the hash-to-destination link: its source is not a group input
        have h2 : x = ⟨t.next_id, "Hash", l.to_node, l.to_socket⟩ := by
          simpa using h1
        unfold Rand.seedLinkQualifies Rand.isSeedSource at hq'
        rw [Bool.and_eq_true] at hq'
        have hsrc := hq'.1
        rw [h2] at hsrc
        revert hsrc
        show ¬((match t'.findNode t.next_id, t'.findNode l.to_node with
          | some fn, some tn =>
            (fn.bl_idname == "NodeGroupInput" &&
              match fn.findOutput "Hash" with
              | some fs => Rand.strStripLower fs.name == "seed"
              | none => false) &&
            tn.bl_idname != "NodeReroute"
          | _, _ => false) = true)
        rw [hfind_rid]
        cases t'.findNode l.to_node with
        | none => simp
        | some a => simp [hRNbl]

theorem processLink_step (t : Rand.NodeTree) (c : Int) (l : Rand.Link)
    (ls : List Rand.Link) (H : Rand.StepOK t (l :: ls)) :
    ∃ t', Rand.processLink t c l = .ok (t', c + 1) ∧
      t'.interface = t.interface ∧
      t'.props = t.props ∧
      (Rand.get_tagged_nodes t').map (fun n => n.label) =
        (Rand.get_tagged_nodes t).map (fun n => n.label) ++ [Rand.mkTagLabel c] ∧
      Rand.StepOK t' ls := by
  obtain ⟨hids, hfresh, hiface, hginp, htovB, hfromvB, hmem, hqual, huniq, hpw, hcomp⟩ := H
  have htov : ∀ x ∈ t.links, ∃ a, t.findNode x.to_node = some a ∧
      (a.findInput x.to_socket).isSome :=
    fun x hx => linkToValid_elim t x (htovB x hx)
  have hfromv : ∀ x ∈ t.links, ∃ a, t.findNode x.from_node = some a ∧
      (a.findOutput x.from_socket).isSome :=
    fun x hx => linkFromValid_elim t x (hfromvB x hx)
  have hlmem : l ∈ t.links := hmem l (List.mem_cons_self l ls)
  have hlqual := hqual l (List.mem_cons_self l ls)
  obtain ⟨fn, tn, hfrom, hto, hfnbl, hfnout, hnotag⟩ := seedLinkQualifies_elim t l hlqual
  have hmem_of_find : ∀ {i : Nat} {m : Rand.Node},
      t.findNode i = some m → m ∈ t.nodes ∧ m.id = i := by
    intro i m hfind
    exact ⟨List.mem_of_find?_eq_some hfind, by simpa using List.find?_some hfind⟩
  have htn := hmem_of_find hto
  have hfnn := hmem_of_find hfrom
  have hto_lt : l.to_node < t.next_id := htn.2 ▸ hfresh tn htn.1
  have hfrom_lt : l.from_node < t.next_id := hfnn.2 ▸ hfresh fn hfnn.1
  have hfninputs : fn.inputs = [] := hginp fn hfnn.1 hfnbl
  have hnorid : ∀ x ∈ t.links, ¬(x.to_node = t.next_id) := by
    intro x hx hcon
    obtain ⟨tnx, hfx, _⟩ := htov x hx
    have h1 := (hmem_of_find hfx).2 ▸ hfresh tnx (hmem_of_find hfx).1
    omega
  have hnoto_from : ∀ x ∈ t.links, ¬(x.to_node = l.from_node) := by
    intro x hx hcon
    obtain ⟨tnx, hfx, hfi⟩ := htov x hx
    rw [hcon, hfrom] at hfx
    have htnx : fn = tnx := by injection hfx
    subst htnx
    unfold Rand.Node.findInput at hfi
    rw [hfninputs] at hfi
    simp at hfi
  obtain ⟨σ, hσ⟩ := gseed_lookup t hiface
  have heq := processLink_eq t c l tn fn σ hto hfrom hσ
  -- abbreviations
  generalize hRN : Rand.mkRN t c l tn = RN at heq
  generalize hGN : Rand.mkGN t tn RN = GN at heq
  generalize hT2 : Rand.applyLinks t l RN GN σ.identifier = T2 at heq
  have hRNid : RN.id = t.next_id := by rw [← hRN]; exact mkRN_id t c l tn
  have hRNbl : RN.bl_idname = "FunctionNodeHashValue" := by
    rw [← hRN]; exact mkRN_bl_idname t c l tn
  have hRNlabel : RN.label = Rand.mkTagLabel c := by
    rw [← hRN]; exact mkRN_label t c l tn
  have hRNinputs := hRN ▸ mkRN_inputs t c l tn
  have hRNoutputs := hRN ▸ mkRN_outputs t c l tn
  have hGNid : GN.id = t.next_id + 1 := by rw [← hGN]; exact mkGN_id t tn RN
  have hGNbl : GN.bl_idname = "NodeGroupInput" := by
    rw [← hGN]; exact mkGN_bl_idname t tn RN
  have hGNinputs : GN.inputs = [] := by rw [← hGN]; exact mkGN_inputs t tn RN
  have hGNoutputs : GN.outputs = Rand.hideAdjust (Rand.groupInputOutputs t) := by
    rw [← hGN]; exact mkGN_outputs t tn RN
  have hT2nodes : T2.nodes = t.nodes ++ [RN, GN] := by
    rw [← hT2]; rfl
  have hT2next : T2.next_id = t.next_id + 1 + 1 := by rw [← hT2]; rfl
  have hT2iface : T2.interface = t.interface := by rw [← hT2]; rfl
  have hT2props : T2.props = t.props := by rw [← hT2]; rfl
  have hT2links : T2.links =
      t.links.filter (fun x =>
        !(x.to_node == l.to_node && x.to_socket == l.to_socket))
      ++ [⟨t.next_id + 1, σ.identifier, t.next_id, "Seed"⟩,
          ⟨t.next_id, "Hash", l.to_node, l.to_socket⟩] := by
    rw [← hT2]
    exact applyLinks_links t l RN GN σ.identifier hnorid (by omega)
  have hgout : (GN.findOutput σ.identifier).isSome := by
    unfold Rand.Node.findOutput
    rw [hGNoutputs]
    rw [List.find?_isSome]
    exact ⟨σ, List.mem_of_find?_eq_some hσ, by simp⟩
  -- base-independent lookup helpers
  have hfind_base_none : ∀ (base : List Rand.Node), (∀ n ∈ base, n ∈ t.nodes) →
      ∀ i, t.next_id ≤ i → base.find? (fun n => n.id == i) = none := by
    intro base hsub i hi
    apply List.find?_eq_none.mpr
    intro n hn
    have := hfresh n (hsub n hn)
    simp only [beq_iff_eq]
    omega
  have hfind_rid_gen : ∀ (base : List Rand.Node), (∀ n ∈ base, n ∈ t.nodes) →
      (base ++ [RN, GN]).find? (fun n => n.id == t.next_id) = some RN := by
    intro base hsub
    rw [List.find?_append, hfind_base_none base hsub _ (le_refl _)]
    rw [Option.none_or, List.find?_cons_of_pos _ (by simp [hRNid])]
  have hfind_gid_gen : ∀ (base : List Rand.Node), (∀ n ∈ base, n ∈ t.nodes) →
      (base ++ [RN, GN]).find? (fun n => n.id == t.next_id + 1) = some GN := by
    intro base hsub
    rw [List.find?_append, hfind_base_none base hsub _ (by omega)]
    rw [Option.none_or, List.find?_cons_of_neg _ (by simp [hRNid]),
      List.find?_cons_of_pos _ (by simp [hGNid])]
  have hids_gen : ∀ (base : List Rand.Node), (∀ n ∈ base, n ∈ t.nodes) →
      ((base.map (fun n => n.id)).Nodup) →
      (((base ++ [RN, GN]).map (fun n => n.id)).Nodup) := by
    intro base hsub hnd
    rw [List.map_append, List.nodup_append]
    refine ⟨hnd, by simp [hRNid, hGNid], ?_⟩
    intro a ha
    simp only [List.mem_map] at ha
    obtain ⟨n, hn, rfl⟩ := ha
    have hlt := hfresh n (hsub n hn)
    simp only [List.map_cons, List.map_nil, List.mem_cons, List.not_mem_nil,
      or_false, List.mem_singleton]
    rw [hRNid, hGNid]
    omega
  have htaggedRN : Rand.taggedP RN = true := by
    simp [Rand.taggedP, hRNbl, hRNlabel, mkTagLabel_endsWith]
  have htaggedGN : Rand.taggedP GN = false := by
    simp [Rand.taggedP, hGNbl]
  have htagged_gen : ∀ (base : List Rand.Node),
      ((base ++ [RN, GN]).filter Rand.taggedP).map (fun n => n.label) =
        (base.filter Rand.taggedP).map (fun n => n.label) ++ [Rand.mkTagLabel c] := by
    intro base
    rw [List.filter_append, List.filter_cons_of_pos htaggedRN,
      List.filter_cons_of_neg (by simp [htaggedGN]), List.filter_nil,
      List.map_append]
    simp [hRNlabel]
  -- case split on the orphan condition
  cases hcond : fn.outputs.any (fun s => T2.isLinked l.from_node s.identifier) with
  | true =>
    have ht' : Rand.orphanClean T2 l.from_node fn = T2 := by
      unfold Rand.orphanClean
      rw [hcond]
      rfl
    rw [ht'] at heq
    have hsubA : ∀ n ∈ t.nodes, n ∈ t.nodes := fun n hn => hn
    have hstabA : ∀ (i : Nat) (m : Rand.Node), t.findNode i = some m →
        T2.findNode i = some m := by
      intro i m h
      show List.find? _ T2.nodes = some m
      rw [hT2nodes]
      exact find?_append_left h
    refine ⟨T2, heq, hT2iface, hT2props, ?_, ?_⟩
    · show (T2.nodes.filter Rand.taggedP).map (fun n => n.label) = _
      rw [hT2nodes, htagged_gen, get_tagged_nodes_eq]
    · apply post_StepOK t T2 c l ls RN GN σ.identifier hfresh hiface hginp htov
        hfromv hmem hqual huniq hpw hcomp hT2links hT2next hT2iface
      · intro n hn
        rw [hT2nodes] at hn
        rcases List.mem_append.mp hn with h | h
        · exact Or.inl h
        · rcases List.mem_cons.mp h with h | h
          · exact Or.inr (Or.inl h)
          · exact Or.inr (Or.inr (by simpa using h))
      · show ((T2.nodes.map (fun n => n.id)).Nodup)
        rw [hT2nodes]
        exact hids_gen t.nodes hsubA hids
      · intro x hx _
        obtain ⟨a, hfa, _⟩ := hfromv x hx
        obtain ⟨b, hfb, _⟩ := htov x hx
        exact ⟨by rw [hfa, hstabA _ _ hfa], by rw [hfb, hstabA _ _ hfb]⟩
      · rw [hto, hstabA _ _ hto]
      · show List.find? _ T2.nodes = some RN
        rw [hT2nodes]
        exact hfind_rid_gen t.nodes hsubA
      · show List.find? _ T2.nodes = some GN
        rw [hT2nodes]
        exact hfind_gid_gen t.nodes hsubA
      · exact hRNid
      · exact hRNbl
      · exact hRNlabel
      · rw [← hRNinputs]
      · rw [← hRNoutputs]
      · exact hGNid
      · exact hGNinputs
      · exact hgout
  | false =>
    -- no surviving link touches the removed supplier
    have hnoref : ∀ x ∈ T2.links,
        ¬(x.from_node = l.from_node) ∧ ¬(x.to_node = l.from_node) := by
      intro x hx
      rw [hT2links] at hx
      rcases List.mem_append.mp hx with hxf | hnew
      · have hxt : x ∈ t.links := List.mem_of_mem_filter hxf
        refine ⟨?_, hnoto_from x hxt⟩
        intro hcon
        obtain ⟨a, hfa, hoa⟩ := hfromv x hxt
        rw [hcon, hfrom] at hfa
        have haf : fn = a := by injection hfa
        subst haf
        obtain ⟨os, hos⟩ := Option.isSome_iff_exists.mp hoa
        have hosid : os.identifier = x.from_socket := by
          simpa using List.find?_some hos
        have hosmem : os ∈ fn.outputs := List.mem_of_find?_eq_some hos
        have : fn.outputs.any
            (fun s => T2.isLinked l.from_node s.identifier) = true := by
          rw [List.any_eq_true]
          refine ⟨os, hosmem, ?_⟩
          unfold Rand.NodeTree.isLinked
          rw [List.any_eq_true]
          refine ⟨x, by rw [hT2links]; exact List.mem_append_left _ hxf, ?_⟩
          simp [hcon, hosid]
        rw [hcond] at this
        exact absurd this (by simp)
      · rcases List.mem_cons.mp hnew with h1 | h1
        · subst h1
          constructor <;> simp only [] <;> omega
        · have h2 : x = ⟨t.next_id, "Hash", l.to_node, l.to_socket⟩ := by
            simpa using h1
          subst h2
          exact ⟨by simp only []; omega, hnoto_from l hlmem⟩
    have ht' : Rand.orphanClean T2 l.from_node fn = T2.nodesRemove l.from_node := by
      unfold Rand.orphanClean
      rw [hcond]
      rfl
    rw [ht'] at heq
    have hRnodes : (T2.nodesRemove l.from_node).nodes =
        t.nodes.filter (fun n => n.id != l.from_node) ++ [RN, GN] := by
      show (T2.nodes.filter (fun n => n.id != l.from_node)) = _
      rw [hT2nodes, List.filter_append]
      congr 1
      rw [List.filter_cons_of_pos (by simp [hRNid]; omega),
        List.filter_cons_of_pos (by simp [hGNid]; omega), List.filter_nil]
    have hRlinks : (T2.nodesRemove l.from_node).links = T2.links := by
      show (T2.links.filter _) = T2.links
      apply List.filter_eq_self.mpr
      intro x hx
      have := hnoref x hx
      simp only [Bool.and_eq_true, bne_iff_ne, ne_eq]
      exact ⟨this.1, this.2⟩
    have hsubB : ∀ n ∈ t.nodes.filter (fun n => n.id != l.from_node), n ∈ t.nodes :=
      fun n hn => List.mem_of_mem_filter hn
    have hstabB : ∀ (i : Nat) (m : Rand.Node), t.findNode i = some m →
        ¬(i = l.from_node) → (T2.nodesRemove l.from_node).findNode i = some m := by
      intro i m h hne
      show List.find? _ (T2.nodesRemove l.from_node).nodes = some m
      rw [hRnodes]
      apply find?_append_left
      apply find?_filter_of_find? h
      have : m.id = i := by simpa using List.find?_some h
      simp [this, hne]
    refine ⟨T2.nodesRemove l.from_node, heq, ?_, ?_, ?_, ?_⟩
    · show T2.interface = t.interface
      exact hT2iface
    · show T2.props = t.props
      exact hT2props
    · show ((T2.nodesRemove l.from_node).nodes.filter Rand.taggedP).map
        (fun n => n.label) = _
      rw [hRnodes, htagged_gen, get_tagged_nodes_eq]
      congr 2
      rw [List.filter_filter]
      apply List.filter_congr
      intro n hn
      by_cases htg : Rand.taggedP n = true
      · rw [htg]
        have hne : ¬(n.id = l.from_node) := by
          intro hcon
          have hnf : n = fn := by
            apply List.inj_on_of_nodup_map hids hn hfnn.1
            rw [hcon, hfnn.2]
          rw [hnf] at htg
          simp [Rand.taggedP, hfnbl] at htg
        simp [hne]
      · simp only [Bool.not_eq_true] at htg
        rw [htg]
        simp
    · apply post_StepOK t (T2.nodesRemove l.from_node) c l ls RN GN σ.identifier
        hfresh hiface hginp htov hfromv hmem hqual huniq hpw hcomp
        (by rw [hRlinks]; exact hT2links) (by show T2.next_id = _; exact hT2next)
        (by show T2.interface = _; exact hT2iface)
      · intro n hn
        rw [hRnodes] at hn
        rcases List.mem_append.mp hn with h | h
        · exact Or.inl (List.mem_of_mem_filter h)
        · rcases List.mem_cons.mp h with h | h
          · exact Or.inr (Or.inl h)
          · exact Or.inr (Or.inr (by simpa using h))
      · show (((T2.nodesRemove l.from_node).nodes).map (fun n => n.id)).Nodup
        rw [hRnodes]
        apply hids_gen _ hsubB
        exact hids.sublist (List.Sublist.map _ (List.filter_sublist t.nodes))
      · intro x hx hx'
        rw [hRlinks] at hx'
        have hnr := hnoref x hx'
        obtain ⟨a, hfa, _⟩ := hfromv x hx
        obtain ⟨b, hfb, _⟩ := htov x hx
        exact ⟨by rw [hfa, hstabB _ _ hfa hnr.1],
          by rw [hfb, hstabB _ _ hfb hnr.2]⟩
      · rw [hto, hstabB _ _ hto (hnoto_from l hlmem)]
      · show List.find? _ (T2.nodesRemove l.from_node).nodes = some RN
        rw [hRnodes]
        exact hfind_rid_gen _ hsubB
      · show List.find? _ (T2.nodesRemove l.from_node).nodes = some GN
        rw [hRnodes]
        exact hfind_gid_gen _ hsubB
      · exact hRNid
      · exact hRNbl
      · exact hRNlabel
      · rw [← hRNinputs]
      · rw [← hRNoutputs]
      · exact hGNid
      · exact hGNinputs
      · exact hgout

theorem foldStep_spec (ls : List Rand.Link) :
    ∀ (t : Rand.NodeTree) (c : Int), Rand.StepOK t ls →
    ∃ t', List.foldlM Rand.foldStep (t, c) ls = .ok (t', c + (ls.length : Int)) ∧
      t'.interface = t.interface ∧ t'.props = t.props ∧
      (Rand.get_tagged_nodes t').map (fun n => n.label) =
        (Rand.get_tagged_nodes t).map (fun n => n.label) ++
          (List.range ls.length).map (fun i : ℕ => Rand.mkTagLabel (c + (i : Int))) ∧
      Rand.StepOK t' [] := by
  induction ls with
  | nil =>
    intro t c H
    refine ⟨t, ?_, rfl, rfl, by simp, H⟩
    simp only [List.foldlM_nil, List.length_nil, Nat.cast_zero, add_zero]
    rfl
  | cons l rest ih =>
    intro t c H
    obtain ⟨t1, heq1, hif1, hpr1, htag1, H1⟩ := processLink_step t c l rest H
    obtain ⟨t2, heq2, hif2, hpr2, htag2, H2⟩ := ih t1 (c + 1) H1
    refine ⟨t2, ?_, hif2.trans hif1, hpr2.trans hpr1, ?_, H2⟩
    · rw [List.foldlM_cons]
      show Rand.processLink t c l >>= _ = _
      rw [heq1]
      show List.foldlM Rand.foldStep (t1, c + 1) rest = _
      rw [heq2]
      congr 2
      simp only [List.length_cons]
      push_cast
      ring
    · rw [htag2, htag1, List.append_assoc]
      congr 1
      simp only [List.length_cons]
      rw [List.range_succ_eq_map]
      simp only [List.map_cons, List.map_map, List.singleton_append]
      congr 1
      · norm_num
      · apply List.map_congr_left
        intro i _
        simp only [Function.comp]
        congr 1
        push_cast
        ring

theorem StepOK_of_wf (t : Rand.NodeTree)
    (hwf : t.wfB = true) (hseed : Rand.hasSeedInterfaceInput t = true) :
    Rand.StepOK t (t.links.filter (Rand.seedLinkQualifies t)) := by
  unfold Rand.NodeTree.wfB at hwf
  simp only [Bool.and_eq_true, decide_eq_true_eq, List.all_eq_true] at hwf
  obtain ⟨⟨⟨⟨hids, hfresh⟩, hlinks⟩, hginp⟩, hpw⟩ := hwf
  refine ⟨hids, ?_, hseed, ?_, ?_, ?_, ?_, ?_, ?_, ?_, ?_⟩
  · intro n hn
    exact hfresh n hn
  · intro n hn hbl
    have h1 := hginp n hn
    rw [hbl] at h1
    simpa using h1
  · intro x hx
    have h1 := hlinks x hx
    unfold Rand.linkToValid
    exact h1.2
  · intro x hx
    have h1 := hlinks x hx
    unfold Rand.linkFromValid
    exact h1.1
  · intro x hx
    exact List.mem_of_mem_filter hx
  · intro x hx
    exact (List.mem_filter.mp hx).2
  · intro x hx y hy hsame
    by_contra hne
    have hxl : x ∈ t.links := List.mem_of_mem_filter hx
    have hsym : Symmetric (fun a b : Rand.Link =>
        ¬(a.to_node = b.to_node ∧ a.to_socket = b.to_socket)) := by
      intro a b hab hcon
      exact hab ⟨hcon.1.symm, hcon.2.symm⟩
    exact (hpw.forall hsym) hy hxl hne hsame
  · exact List.Pairwise.sublist (List.filter_sublist _) hpw
  · intro x hx hq
    exact List.mem_filter.mpr ⟨hx, hq⟩

theorem get_seed_links_false_eq (t : Rand.NodeTree) :
    Rand.get_seed_links t false =
      (if (t.links.filter (Rand.seedLinkQualifies t)).isEmpty
        then Sum.inr "No seed links found"
        else Sum.inl (t.links.filter (Rand.seedLinkQualifies t))) := rfl

theorem clampInt32_id (n : Int) (hlo : -(2 ^ 31) ≤ n) (hhi : n ≤ 2 ^ 31 - 1) :
    Rand.clampInt32 n = n := by
  unfold Rand.clampInt32
  omega

theorem randomize_run_spec (t : Rand.NodeTree) (c : Int)
    (hwf : t.wfB = true) (hseed : Rand.hasSeedInterfaceInput t = true)
    (hprops : t.props = some c)
    (hlo : -(2 ^ 31) ≤ c) (hhi : c + (Rand.numSeedLinks t : Int) ≤ 2 ^ 31 - 1) :
    ∃ t' m, Rand.RandomizeSeed_execute_node_tree t = .ok (t', m) ∧
      t'.props = some (c + (Rand.numSeedLinks t : Int)) ∧
      (Rand.get_tagged_nodes t').map (fun n => n.label) =
        (Rand.get_tagged_nodes t).map (fun n => n.label) ++
          (List.range (Rand.numSeedLinks t)).map
            (fun i : ℕ => Rand.mkTagLabel (c + (i : Int))) ∧
      (∀ x ∈ t'.links, Rand.seedLinkQualifies t' x = false) ∧
      t'.interface = t.interface := by
  cases hq : t.links.filter (Rand.seedLinkQualifies t) with
  | nil =>
    have hk : Rand.numSeedLinks t = 0 := by
      unfold Rand.numSeedLinks
      rw [hq]
      rfl
    refine ⟨t, some "No seed links found", ?_, ?_, ?_, ?_, rfl⟩
    · unfold Rand.RandomizeSeed_execute_node_tree
      rw [get_seed_links_false_eq, hq]
      rfl
    · rw [hk, hprops]
      norm_num
    · rw [hk]
      simp
    · intro x hx
      by_contra hcon
      rw [Bool.not_eq_false] at hcon
      have hmem : x ∈ t.links.filter (Rand.seedLinkQualifies t) :=
        List.mem_filter.mpr ⟨hx, hcon⟩
      rw [hq] at hmem
      exact absurd hmem (List.not_mem_nil x)
  | cons a rest =>
    have hSO := StepOK_of_wf t hwf hseed
    rw [hq] at hSO
    obtain ⟨t2, hfold, hif, hpr, htag, hend⟩ := foldStep_spec (a :: rest) t c hSO
    have hlenN : Rand.numSeedLinks t = (a :: rest).length := by
      unfold Rand.numSeedLinks
      rw [hq]
    have hgl : Rand.get_seed_links t false = Sum.inl (a :: rest) := by
      rw [get_seed_links_false_eq, hq]
      rfl
    have hclamp : Rand.clampInt32 (c + (((a :: rest).length : ℕ) : Int)) =
        c + (((a :: rest).length : ℕ) : Int) := by
      apply clampInt32_id
      · have : (0 : Int) ≤ (((a :: rest).length : ℕ) : Int) := by positivity
        omega
      · rw [← hlenN]
        exact hhi
    refine ⟨{ t2 with props := some (c + ((Rand.numSeedLinks t : ℕ) : Int)) },
      none, ?_, rfl, ?_, ?_, ?_⟩
    · unfold Rand.RandomizeSeed_execute_node_tree
      simp only [hgl, hprops]
      rw [hfold]
      show (Except.ok
        ({ t2 with props := some (Rand.clampInt32 (c + (((a :: rest).length : ℕ) : Int))) },
          none) : Except String (Rand.NodeTree × Option String)) = _
      rw [hclamp, hlenN]
    · show (Rand.get_tagged_nodes t2).map (fun n => n.label) = _
      rw [htag, hlenN]
    · intro x hx
      have hx2 : x ∈ t2.links := hx
      by_contra hcon
      rw [Bool.not_eq_false] at hcon
      have hq2 : Rand.seedLinkQualifies t2 x = true := hcon
      have := hend.2.2.2.2.2.2.2.2.2.2 x hx2 hq2
      exact absurd this (List.not_mem_nil x)
    · show t2.interface = t.interface
      exact hif

/-- C1: with no intervening structural change, a second invocation of
`RandomizeSeed` right after a successful one is a no-op: the rewritten
links now terminate at tagged hash nodes, so no link qualifies any more,
and the second run returns the very same tree with the informational
message, inserting nothing and leaving the persisted counter
untouched. -/
theorem randomizeSeed_second_run_noop (t t' : Rand.NodeTree) (c : Int)
    (hwf : t.wfB = true) (hseed : Rand.hasSeedInterfaceInput t = true)
    (hprops : t.props = some c)
    (hlo : -(2 ^ 31) ≤ c) (hhi : c + (Rand.numSeedLinks t : Int) ≤ 2 ^ 31 - 1)
    (hrun : Rand.RandomizeSeed_execute_node_tree t = .ok (t', none)) :
    Rand.get_seed_links t' false = Sum.inr "No seed links found" ∧
    Rand.RandomizeSeed_execute_node_tree t' =
      .ok (t', some "No seed links found") := by
  obtain ⟨t2, m, hrun2, hpr, htag, hnoq, hif⟩ :=
    randomize_run_spec t c hwf hseed hprops hlo hhi
  rw [hrun] at hrun2
  injection hrun2 with h
  injection h with ha hb
  subst ha
  have hfil : t'.links.filter (Rand.seedLinkQualifies t') = [] := by
    apply List.filter_eq_nil_iff.mpr
    intro a ha
    simp [hnoq a ha]
  have hgl : Rand.get_seed_links t' false = Sum.inr "No seed links found" := by
    rw [get_seed_links_false_eq, hfil]
    rfl
  refine ⟨hgl, ?_⟩
  unfold Rand.RandomizeSeed_execute_node_tree
  simp only [hgl]

theorem randomizeSeed_second_run_noop_witness :
    Rand.get_seed_links Rand.exTreeAfter false = Sum.inr "No seed links found" ∧
    Rand.RandomizeSeed_execute_node_tree Rand.exTreeAfter =
      .ok (Rand.exTreeAfter, some "No seed links found") :=
  randomizeSeed_second_run_noop Rand.exTree Rand.exTreeAfter 0
    (by decide) (by decide) rfl (by decide)
    (by norm_num [show Rand.numSeedLinks Rand.exTree = 1 from rfl]) rfl

theorem runsOK_aux (ts : List Rand.NodeTree) :
    ∀ (c : Int),
    (∀ tt ∈ ts, tt.wfB = true ∧ Rand.hasSeedInterfaceInput tt = true) →
    (∀ t0 ∈ ts.head?, t0.props = some c) →
    List.Chain' (fun a b => ∀ r, Rand.RandomizeSeed_execute_node_tree a = .ok r →
      b.props = r.1.props) ts →
    0 ≤ c → c + (Rand.sumK ts : Int) ≤ 2 ^ 31 - 1 →
    Rand.RunsOK ts c := by
  induction ts with
  | nil =>
    intro c _ _ _ _ _
    trivial
  | cons t rest ih =>
    intro c hwf hhead hchain hc0 hbound
    have hw := hwf t (List.mem_cons_self t rest)
    have hpr : t.props = some c := hhead t rfl
    have hsum : (Rand.sumK (t :: rest) : Int) =
        (Rand.numSeedLinks t : Int) + (Rand.sumK rest : Int) := by
      show ((Rand.numSeedLinks t + Rand.sumK rest : ℕ) : Int) = _
      push_cast
      ring
    have hk0 : (0 : Int) ≤ (Rand.numSeedLinks t : Int) := by positivity
    have hs0 : (0 : Int) ≤ (Rand.sumK rest : Int) := by positivity
    obtain ⟨t1, m, hrun, hpr1, htag1, hnoq1, hif1⟩ :=
      randomize_run_spec t c hw.1 hw.2 hpr (by omega) (by omega)
    refine ⟨t1, m, hrun, hpr1, htag1, ?_⟩
    cases rest with
    | nil => trivial
    | cons u rest2 =>
      have hchain1 : u.props = t1.props :=
        (List.chain'_cons.mp hchain).1 (t1, m) hrun
      apply ih (c + Rand.numSeedLinks t)
      · intro tt htt
        exact hwf tt (List.mem_cons_of_mem t htt)
      · intro t0 ht0
        have h : t0 = u := by simpa using ht0.symm
        subst h
        rw [hchain1, hpr1]
      · exact (List.chain'_cons.mp hchain).2
      · omega
      · omega

theorem seqIndices_eq_range (ts : List Rand.NodeTree) :
    ∀ c : Int, Rand.seqIndices ts c =
      (List.range (Rand.sumK ts)).map (fun i : ℕ => c + (i : Int)) := by
  induction ts with
  | nil =>
    intro c
    rfl
  | cons t rest ih =>
    intro c
    show (List.range (Rand.numSeedLinks t)).map (fun i : ℕ => c + (i : Int)) ++
        Rand.seqIndices rest (c + (Rand.numSeedLinks t : Int)) = _
    rw [ih]
    show _ = (List.range (Rand.numSeedLinks t + Rand.sumK rest)).map
      (fun i : ℕ => c + (i : Int))
    rw [List.range_add, List.map_append, List.map_map]
    congr 1
    apply List.map_congr_left
    intro i _
    simp only [Function.comp]
    push_cast
    ring

theorem seqIndices_nodup (ts : List Rand.NodeTree) (c : Int) :
    (Rand.seqIndices ts c).Nodup := by
  rw [seqIndices_eq_range]
  apply List.Nodup.map
  · intro a b hab
    simpa using hab
  · exact List.nodup_range _

/-- C3: starting from counter `c = 0`, across sequential invocations on
one tree (each state carrying over the persisted counter from the
previous run), the counter after invocation `i` equals the sum of the
numbers of links each run rewrote, the nodes inserted by run `i` are
labelled with the next consecutive indices, and the indices assigned
across all runs are pairwise distinct. -/
theorem randomizeSeed_counter_accumulates (ts : List Rand.NodeTree)
    (hwf : ∀ tt ∈ ts, tt.wfB = true ∧ Rand.hasSeedInterfaceInput tt = true)
    (hhead : ∀ t0 ∈ ts.head?, t0.props = some 0)
    (hchain : List.Chain' (fun a b => ∀ r,
      Rand.RandomizeSeed_execute_node_tree a = .ok r → b.props = r.1.props) ts)
    (hbound : (Rand.sumK ts : Int) ≤ 2 ^ 31 - 1) :
    Rand.RunsOK ts 0 ∧ (Rand.seqIndices ts 0).Nodup :=
  ⟨runsOK_aux ts 0 hwf hhead hchain (le_refl 0) (by omega),
    seqIndices_nodup ts 0⟩

theorem randomizeSeed_counter_accumulates_witness :
    Rand.RunsOK [Rand.exTree, Rand.exTreeAfter] 0 ∧
      (Rand.seqIndices [Rand.exTree, Rand.exTreeAfter] 0).Nodup :=
  randomizeSeed_counter_accumulates [Rand.exTree, Rand.exTreeAfter]
    (by decide)
    (by
      intro t0 ht0
      have h : t0 = Rand.exTree := by simpa using ht0.symm
      subst h
      rfl)
    (by
      refine List.chain'_cons.mpr ⟨?_, List.chain'_singleton _⟩
      intro r hr
      have hd : Rand.RandomizeSeed_execute_node_tree Rand.exTree =
          .ok (Rand.exTreeAfter, none) := rfl
      rw [hd] at hr
      injection hr with h
      rw [← h])
    (by decide)

theorem filter_dest_singleton (xs : List Rand.Link) (l : Rand.Link)
    (hmem : l ∈ xs)
    (hpw : List.Pairwise (fun a b =>
      ¬(a.to_node = b.to_node ∧ a.to_socket = b.to_socket)) xs) :
    xs.filter (fun x => x.to_node == l.to_node && x.to_socket == l.to_socket) =
      [l] := by
  induction xs with
  | nil => cases hmem
  | cons a rest ih =>
    rcases List.mem_cons.mp hmem with h1 | h1
    · subst h1
      rw [List.filter_cons_of_pos (by simp)]
      have hrest : rest.filter (fun x =>
          x.to_node == l.to_node && x.to_socket == l.to_socket) = [] := by
        apply List.filter_eq_nil_iff.mpr
        intro y hy
        have hne := (List.pairwise_cons.mp hpw).1 y hy
        simp only [Bool.and_eq_true, beq_iff_eq, not_and]
        intro hc1 hc2
        exact hne ⟨hc1.symm, hc2.symm⟩
      rw [hrest]
    · have hne := (List.pairwise_cons.mp hpw).1 l h1
      rw [List.filter_cons_of_neg (by
        simp only [Bool.and_eq_true, beq_iff_eq, not_and]
        intro hc1 hc2
        exact absurd ⟨hc1, hc2⟩ hne)]
      exact ih h1 (List.pairwise_cons.mp hpw).2

theorem length_filter_split {α : Type} (p : α → Bool) (xs : List α) :
    (xs.filter p).length + (xs.filter (fun a => !(p a))).length = xs.length := by
  induction xs with
  | nil => rfl
  | cons a rest ih =>
    by_cases h : p a = true
    · rw [List.filter_cons_of_pos h, List.filter_cons_of_neg (by simp [h])]
      simp only [List.length_cons]
      omega
    · rw [List.filter_cons_of_neg h, List.filter_cons_of_pos (by simp [h])]
      simp only [List.length_cons]
      omega

/-- C2: rewriting one qualifying seed link introduces exactly one hash
node and one group-input supplier node and exactly two replacement
links while the original link is removed (the only link into that
destination socket), for a net edge change of minus one plus two; and
the original source node is deleted exactly when none of its output
sockets remains linked afterwards. -/
theorem processLink_conservation (t : Rand.NodeTree) (c : Int) (l : Rand.Link)
    (hwf : t.wfB = true) (hseed : Rand.hasSeedInterfaceInput t = true)
    (hlmem : l ∈ t.links) (hlqual : Rand.seedLinkQualifies t l = true) :
    ∃ t' RN GN fn gsid,
      Rand.processLink t c l = .ok (t', c + 1) ∧
      RN.bl_idname = "FunctionNodeHashValue" ∧
      GN.bl_idname = "NodeGroupInput" ∧
      (t'.nodes = t.nodes ++ [RN, GN] ∨
        t'.nodes = t.nodes.filter (fun n => n.id != l.from_node) ++ [RN, GN]) ∧
      t'.links =
        t.links.filter (fun x =>
          !(x.to_node == l.to_node && x.to_socket == l.to_socket)) ++
          [⟨t.next_id + 1, gsid, t.next_id, "Seed"⟩,
            ⟨t.next_id, "Hash", l.to_node, l.to_socket⟩] ∧
      t.links.filter (fun x =>
        x.to_node == l.to_node && x.to_socket == l.to_socket) = [l] ∧
      t'.links.length = t.links.length + 1 ∧
      l ∉ t'.links ∧
      t.findNode l.from_node = some fn ∧
      (t'.findNode l.from_node = none ↔
        fn.outputs.all
          (fun s => !(t'.isLinked l.from_node s.identifier)) = true) := by
  unfold Rand.NodeTree.wfB at hwf
  simp only [Bool.and_eq_true, decide_eq_true_eq, List.all_eq_true] at hwf
  obtain ⟨⟨⟨⟨hids, hfresh⟩, hlinksv⟩, hginpB⟩, hpw⟩ := hwf
  have htov : ∀ x ∈ t.links, ∃ a, t.findNode x.to_node = some a ∧
      (a.findInput x.to_socket).isSome := by
    intro x hx
    have h1 := (hlinksv x hx).2
    cases hf : t.findNode x.to_node with
    | none => rw [hf] at h1; simp at h1
    | some a => rw [hf] at h1; exact ⟨a, rfl, h1⟩
  have hginp : ∀ n ∈ t.nodes, n.bl_idname = "NodeGroupInput" → n.inputs = [] := by
    intro n hn hbl
    have h1 := hginpB n hn
    rw [hbl] at h1
    simpa using h1
  obtain ⟨fn, tn, hfrom, hto, hfnbl, hfnout, hnotag⟩ := seedLinkQualifies_elim t l hlqual
  have hmem_of_find : ∀ {i : Nat} {m : Rand.Node},
      t.findNode i = some m → m ∈ t.nodes ∧ m.id = i := by
    intro i m hfind
    exact ⟨List.mem_of_find?_eq_some hfind, by simpa using List.find?_some hfind⟩
  have htn := hmem_of_find hto
  have hfnn := hmem_of_find hfrom
  have hto_lt : l.to_node < t.next_id := htn.2 ▸ hfresh tn htn.1
  have hfrom_lt : l.from_node < t.next_id := hfnn.2 ▸ hfresh fn hfnn.1
  have hfninputs : fn.inputs = [] := hginp fn hfnn.1 hfnbl
  have hnorid : ∀ x ∈ t.links, ¬(x.to_node = t.next_id) := by
    intro x hx hcon
    obtain ⟨tnx, hfx, _⟩ := htov x hx
    have h1 := (hmem_of_find hfx).2 ▸ hfresh tnx (hmem_of_find hfx).1
    omega
  have hnoto_from : ∀ x ∈ t.links, ¬(x.to_node = l.from_node) := by
    intro x hx hcon
    obtain ⟨tnx, hfx, hfi⟩ := htov x hx
    rw [hcon, hfrom] at hfx
    have htnx : fn = tnx := by injection hfx
    subst htnx
    unfold Rand.Node.findInput at hfi
    rw [hfninputs] at hfi
    simp at hfi
  obtain ⟨σ, hσ⟩ := gseed_lookup t hseed
  have heq := processLink_eq t c l tn fn σ hto hfrom hσ
  generalize hRN : Rand.mkRN t c l tn = RN at heq
  generalize hGN : Rand.mkGN t tn RN = GN at heq
  generalize hT2 : Rand.applyLinks t l RN GN σ.identifier = T2 at heq
  have hRNid : RN.id = t.next_id := by rw [← hRN]; exact mkRN_id t c l tn
  have hRNbl : RN.bl_idname = "FunctionNodeHashValue" := by
    rw [← hRN]; exact mkRN_bl_idname t c l tn
  have hGNid : GN.id = t.next_id + 1 := by rw [← hGN]; exact mkGN_id t tn RN
  have hGNbl : GN.bl_idname = "NodeGroupInput" := by
    rw [← hGN]; exact mkGN_bl_idname t tn RN
  have hT2nodes : T2.nodes = t.nodes ++ [RN, GN] := by rw [← hT2]; rfl
  have hT2links : T2.links =
      t.links.filter (fun x =>
        !(x.to_node == l.to_node && x.to_socket == l.to_socket))
      ++ [⟨t.next_id + 1, σ.identifier, t.next_id, "Seed"⟩,
          ⟨t.next_id, "Hash", l.to_node, l.to_socket⟩] := by
    rw [← hT2]
    exact applyLinks_links t l RN GN σ.identifier hnorid (by omega)
  have hsingle : t.links.filter (fun x =>
      x.to_node == l.to_node && x.to_socket == l.to_socket) = [l] :=
    filter_dest_singleton t.links l hlmem hpw
  have hlen : ∀ (tl : List Rand.Link), tl =
      t.links.filter (fun x =>
        !(x.to_node == l.to_node && x.to_socket == l.to_socket))
      ++ [⟨t.next_id + 1, σ.identifier, t.next_id, "Seed"⟩,
          ⟨t.next_id, "Hash", l.to_node, l.to_socket⟩] →
      tl.length = t.links.length + 1 := by
    intro tl htl
    have hsplit := length_filter_split (fun x =>
      (x.to_node == l.to_node && x.to_socket == l.to_socket : Bool)) t.links
    simp only [] at hsplit
    have h1 : (t.links.filter (fun x =>
        x.to_node == l.to_node && x.to_socket == l.to_socket)).length = 1 := by
      rw [hsingle]
      rfl
    rw [htl, List.length_append]
    simp only [List.length_cons, List.length_nil]
    omega
  have hlnot : l ∉ T2.links := by
    rw [hT2links]
    intro hmem2
    rcases List.mem_append.mp hmem2 with h1 | h1
    · have h2 := (List.mem_filter.mp h1).2
      simp at h2
    · rcases List.mem_cons.mp h1 with h2 | h2
      · have h3 : l.to_node = t.next_id := by rw [h2]
        omega
      · have h3 : l = ⟨t.next_id, "Hash", l.to_node, l.to_socket⟩ := by
          simpa using h2
        have h4 : l.from_node = t.next_id := by rw [h3]
        omega
  cases hcond : fn.outputs.any (fun s => T2.isLinked l.from_node s.identifier) with
  | true =>
    have ht' : Rand.orphanClean T2 l.from_node fn = T2 := by
      unfold Rand.orphanClean
      rw [hcond]
      rfl
    rw [ht'] at heq
    have hfind : T2.findNode l.from_node = some fn := by
      show List.find? _ T2.nodes = some fn
      rw [hT2nodes]
      exact find?_append_left hfrom
    refine ⟨T2, RN, GN, fn, σ.identifier, heq, hRNbl, hGNbl, Or.inl hT2nodes,
      hT2links, hsingle, hlen T2.links hT2links, hlnot, hfrom, ?_⟩
    apply iff_of_false
    · simp [hfind]
    · intro hall
      rw [List.all_eq_true] at hall
      rw [List.any_eq_true] at hcond
      obtain ⟨s, hs, hlk⟩ := hcond
      have h5 := hall s hs
      rw [hlk] at h5
      simp at h5
  | false =>
    have hnoref : ∀ x ∈ T2.links,
        ¬(x.from_node = l.from_node) ∧ ¬(x.to_node = l.from_node) := by
      intro x hx
      rw [hT2links] at hx
      rcases List.mem_append.mp hx with hxf | hnew
      · have hxt : x ∈ t.links := List.mem_of_mem_filter hxf
        refine ⟨?_, hnoto_from x hxt⟩
        intro hcon
        have h1 := (hlinksv x hxt).1
        cases hfx : t.findNode x.from_node with
        | none => rw [hfx] at h1; simp at h1
        | some a =>
          rw [hfx] at h1
          rw [hcon, hfrom] at hfx
          have haf : fn = a := by injection hfx
          subst haf
          obtain ⟨os, hos⟩ := Option.isSome_iff_exists.mp h1
          have hosid : os.identifier = x.from_socket := by
            simpa using List.find?_some hos
          have hosmem : os ∈ fn.outputs := List.mem_of_find?_eq_some hos
          have hany : fn.outputs.any
              (fun s => T2.isLinked l.from_node s.identifier) = true := by
            rw [List.any_eq_true]
            refine ⟨os, hosmem, ?_⟩
            unfold Rand.NodeTree.isLinked
            rw [List.any_eq_true]
            refine ⟨x, by rw [hT2links]; exact List.mem_append_left _ hxf, ?_⟩
            simp [hcon, hosid]
          rw [hcond] at hany
          exact absurd hany (by simp)
      · rcases List.mem_cons.mp hnew with h1 | h1
        · subst h1
          constructor <;> simp only [] <;> omega
        · have h2 : x = ⟨t.next_id, "Hash", l.to_node, l.to_socket⟩ := by
            simpa using h1
          subst h2
          exact ⟨by simp only []; omega, hnoto_from l hlmem⟩
    have ht' : Rand.orphanClean T2 l.from_node fn = T2.nodesRemove l.from_node := by
      unfold Rand.orphanClean
      rw [hcond]
      rfl
    rw [ht'] at heq
    have hRnodes : (T2.nodesRemove l.from_node).nodes =
        t.nodes.filter (fun n => n.id != l.from_node) ++ [RN, GN] := by
      show (T2.nodes.filter (fun n => n.id != l.from_node)) = _
      rw [hT2nodes, List.filter_append]
      congr 1
      rw [List.filter_cons_of_pos (by simp [hRNid]; omega),
        List.filter_cons_of_pos (by simp [hGNid]; omega), List.filter_nil]
    have hRlinks : (T2.nodesRemove l.from_node).links = T2.links := by
      show (T2.links.filter _) = T2.links
      apply List.filter_eq_self.mpr
      intro x hx
      have h1 := hnoref x hx
      simp only [Bool.and_eq_true, bne_iff_ne, ne_eq]
      exact ⟨h1.1, h1.2⟩
    have hnone : (T2.nodesRemove l.from_node).findNode l.from_node = none := by
      show List.find? _ (T2.nodesRemove l.from_node).nodes = none
      rw [hRnodes, List.find?_append]
      rw [List.find?_eq_none.mpr (by
        intro n hn
        have h2 := (List.mem_filter.mp hn).2
        simpa using h2), Option.none_or]
      rw [List.find?_cons_of_neg _ (by simp [hRNid]; omega),
        List.find?_cons_of_neg _ (by simp [hGNid]; omega), List.find?_nil]
    have hall : fn.outputs.all (fun s =>
        !((T2.nodesRemove l.from_node).isLinked l.from_node s.identifier)) =
          true := by
      rw [List.all_eq_true]
      intro s hs
      have hlk : T2.isLinked l.from_node s.identifier = false := by
        by_contra hcl
        rw [Bool.not_eq_false] at hcl
        have hany : fn.outputs.any
            (fun u => T2.isLinked l.from_node u.identifier) = true := by
          rw [List.any_eq_true]
          exact ⟨s, hs, hcl⟩
        rw [hcond] at hany
        exact absurd hany (by simp)
      have hsame : (T2.nodesRemove l.from_node).isLinked l.from_node s.identifier =
          T2.isLinked l.from_node s.identifier := by
        unfold Rand.NodeTree.isLinked
        rw [hRlinks]
      rw [hsame, hlk]
      rfl
    refine ⟨T2.nodesRemove l.from_node, RN, GN, fn, σ.identifier, heq, hRNbl,
      hGNbl, Or.inr hRnodes, by rw [hRlinks]; exact hT2links, hsingle,
      by rw [hRlinks]; exact hlen T2.links hT2links,
      by rw [hRlinks]; exact hlnot, hfrom, iff_of_true hnone hall⟩

theorem processLink_conservation_witness :
    ∃ t' RN GN fn gsid,
      Rand.processLink Rand.exTree 0 ⟨1, "Socket_0", 2, "Seed_in"⟩ =
        .ok (t', 0 + 1) ∧
      RN.bl_idname = "FunctionNodeHashValue" ∧
      GN.bl_idname = "NodeGroupInput" ∧
      (t'.nodes = Rand.exTree.nodes ++ [RN, GN] ∨
        t'.nodes = Rand.exTree.nodes.filter (fun n => n.id != 1) ++ [RN, GN]) ∧
      t'.links =
        Rand.exTree.links.filter (fun x =>
          !(x.to_node == 2 && x.to_socket == "Seed_in")) ++
          [⟨3 + 1, gsid, 3, "Seed"⟩, ⟨3, "Hash", 2, "Seed_in"⟩] ∧
      Rand.exTree.links.filter (fun x =>
        x.to_node == 2 && x.to_socket == "Seed_in") =
        [⟨1, "Socket_0", 2, "Seed_in"⟩] ∧
      t'.links.length = Rand.exTree.links.length + 1 ∧
      (⟨1, "Socket_0", 2, "Seed_in"⟩ : Rand.Link) ∉ t'.links ∧
      Rand.exTree.findNode 1 = some fn ∧
      (t'.findNode 1 = none ↔
        fn.outputs.all (fun s => !(t'.isLinked 1 s.identifier)) = true) :=
  processLink_conservation Rand.exTree 0 ⟨1, "Socket_0", 2, "Seed_in"⟩
    (by decide) (by decide) (by decide) (by decide)

theorem fold_remove_subset (xs : List Match.IItem) :
    ∀ (acc : List Match.IItem) (q : Match.IItem),
      q ∈ xs.foldl (fun a it => Match.removeItemAndContent a it.uid) acc →
      q ∈ acc := by
  induction xs with
  | nil =>
    intro acc q hq
    exact hq
  | cons x rest ih =>
    intro acc q hq
    have h1 := ih (Match.removeItemAndContent acc x.uid) q hq
    exact List.mem_of_mem_filter h1

theorem removeItemAndContent_uid (a : List Match.IItem) (u : Nat) :
    ∀ q ∈ Match.removeItemAndContent a u, q.uid ≠ u := by
  intro q hq
  have h1 := (List.mem_filter.mp hq).2
  rw [Bool.and_eq_true] at h1
  simpa using h1.1

theorem fold_remove_absent (xs : List Match.IItem) :
    ∀ (acc : List Match.IItem) (p : Match.IItem), p ∈ xs →
      ∀ q ∈ xs.foldl (fun a it => Match.removeItemAndContent a it.uid) acc,
        q.uid ≠ p.uid := by
  induction xs with
  | nil =>
    intro acc p hp
    cases hp
  | cons x rest ih =>
    intro acc p hp q hq
    rcases List.mem_cons.mp hp with h1 | h1
    · subst h1
      have h2 := fold_remove_subset rest (Match.removeItemAndContent acc p.uid) q hq
      exact removeItemAndContent_uid acc p.uid q h2
    · exact ih (Match.removeItemAndContent acc x.uid) p h1 q hq

theorem prunePanels_removes_collected (tgt : List Match.IItem) :
    ∀ p ∈ tgt, p.item_type = "PANEL" →
      Match.is_panel_empty tgt tgt.length p.uid = true →
      ∀ q ∈ Match.prunePanels tgt, q.uid ≠ p.uid := by
  intro p hp hptype hpe q hq
  have hcol : p ∈ tgt.filter (fun it =>
      it.item_type == "PANEL" && Match.is_panel_empty tgt tgt.length it.uid) :=
    List.mem_filter.mpr ⟨hp, by simp [hptype, hpe]⟩
  have hrev : p ∈ (tgt.filter (fun it =>
      it.item_type == "PANEL" &&
        Match.is_panel_empty tgt tgt.length it.uid)).reverse :=
    List.mem_reverse.mpr hcol
  exact fold_remove_absent _ tgt p hrev q hq

/-- C8: when a `MatchGroupInterface` run on a container node succeeds,
its result is the empty-panel sweep of the rebuilt interface: the
collected recursively-empty panels are removed in reverse order, and
every panel the emptiness test reports empty on the rebuilt interface
is absent (by uid) from the final interface tree. -/
theorem matchNode_prunes_empty_panels (outer : List Match.IItem)
    (outerNodes : List Match.ONode) (links : List Match.OLink) (nodeId : Nat)
    (target : List Match.IItem) (fresh : Nat) (res : List Match.IItem)
    (hrun : Match.matchNode outer outerNodes links nodeId target fresh =
      .ok res) :
    ∃ tgt, res = Match.prunePanels tgt ∧
      ∀ p ∈ tgt, p.item_type = "PANEL" →
        Match.is_panel_empty tgt tgt.length p.uid = true →
        ∀ q ∈ res, q.uid ≠ p.uid := by
  unfold Match.matchNode at hrun
  cases hbs : Match.buildSocketsMap outer outerNodes nodeId links with
  | error e =>
    rw [hbs] at hrun
    simp only [Bind.bind, Except.bind] at hrun
    exact absurd hrun (by simp)
  | ok r =>
    rw [hbs] at hrun
    simp only [Bind.bind, Except.bind] at hrun
    cases hfold : outer.foldlM
        (Match.rebuildStep r.2 r.1 target)
        (target ++ [Match.newPanelItem fresh "Root_temp" "" false],
          [(0, fresh)], fresh + 1) with
    | error e =>
      rw [hfold] at hrun
      simp only [Functor.map, Except.map] at hrun
      exact absurd hrun (by simp)
    | ok st =>
      rw [hfold] at hrun
      simp only [Functor.map, Except.map] at hrun
      have hres : Match.prunePanels
          ((st.1.filter (fun it => it.uid != fresh)).map (fun it =>
            if it.parentId == fresh then { it with parentId := 0 } else it)) =
          res := by
        simpa [pure, Except.pure] using hrun
      refine ⟨(st.1.filter (fun it => it.uid != fresh)).map (fun it =>
        if it.parentId == fresh then { it with parentId := 0 } else it),
        hres.symm, ?_⟩
      intro p hp hptype hpe q hq
      rw [← hres] at hq
      exact prunePanels_removes_collected _ p hp hptype hpe q hq

theorem matchNode_prunes_empty_panels_witness :
    ∃ tgt, Match.exMatchRes = Match.prunePanels tgt ∧
      ∀ p ∈ tgt, p.item_type = "PANEL" →
        Match.is_panel_empty tgt tgt.length p.uid = true →
        ∀ q ∈ Match.exMatchRes, q.uid ≠ p.uid :=
  matchNode_prunes_empty_panels Match.exOuterIface Match.exOuterNodes
    Match.exOuterLinks 20 Match.exTargetIface 100 Match.exMatchRes rfl

theorem find?_replace (k v : String) :
    ∀ (m : List (String × String)), m.any (fun kv => kv.1 == k) = true →
    ((m.map (fun kv => if kv.1 == k then (k, v) else kv)).find?
      (fun kv => kv.1 == k)) = some (k, v) := by
  intro m
  induction m with
  | nil =>
    intro h
    simp at h
  | cons a rest ih =>
    intro h
    simp only [List.map_cons]
    by_cases ha : (a.1 == k) = true
    · rw [if_pos ha]
      rw [List.find?_cons_of_pos _ (by simp)]
    · rw [if_neg ha]
      rw [List.find?_cons_of_neg _ (by simpa using ha)]
      apply ih
      simp only [List.any_cons, Bool.or_eq_true] at h
      rcases h with h | h
      · exact absurd h ha
      · exact h

theorem find?_map_keyfix (k v sid : String) (hne : ¬(k = sid)) :
    ∀ (m : List (String × String)),
    (m.map (fun kv => if kv.1 == k then (k, v) else kv)).find?
      (fun kv => kv.1 == sid) = m.find? (fun kv => kv.1 == sid) := by
  intro m
  induction m with
  | nil => rfl
  | cons a rest ih =>
    simp only [List.map_cons]
    by_cases hak : (a.1 == k) = true
    · rw [if_pos hak]
      have hpa : (((k, v) : String × String).1 == sid) = false := by
        simpa using hne
      have hpa2 : (a.1 == sid) = false := by
        have h1 : a.1 = k := by simpa using hak
        rw [h1]
        exact hpa
      rw [List.find?_cons_of_neg _ (by simp [hpa]),
        List.find?_cons_of_neg _ (by simp [hpa2])]
      exact ih
    · rw [if_neg hak]
      rw [List.find?_cons, List.find?_cons]
      cases hpa : (a.1 == sid) with
      | true => simp only [hpa]
      | false =>
        simp only [hpa]
        exact ih

theorem dictGet_insert_self (m : List (String × String)) (k v : String) :
    Match.dictGet (Match.dictInsert m k v) k = some v := by
  unfold Match.dictInsert Match.dictGet
  by_cases h : m.any (fun kv => kv.1 == k) = true
  · rw [if_pos h, find?_replace k v m h]
    rfl
  · rw [if_neg h, List.find?_append]
    rw [List.find?_eq_none.mpr ?_, Option.none_or]
    · rw [List.find?_cons_of_pos _ (by simp)]
      rfl
    · intro kv hkv hcon
      exact h (List.any_eq_true.mpr ⟨kv, hkv, hcon⟩)

theorem dictGet_insert_ne (m : List (String × String)) (k v sid : String)
    (hne : ¬(k = sid)) :
    Match.dictGet (Match.dictInsert m k v) sid = Match.dictGet m sid := by
  unfold Match.dictInsert Match.dictGet
  by_cases h : m.any (fun kv => kv.1 == k) = true
  · rw [if_pos h, find?_map_keyfix k v sid hne m]
  · rw [if_neg h, List.find?_append]
    have h2 : List.find? (fun kv => kv.1 == sid) [(k, v)] = none := by
      rw [List.find?_cons_of_neg _ (by simpa using hne)]
      rfl
    rw [h2]
    cases List.find? (fun kv => kv.1 == sid) m <;> rfl

theorem foldl_last_update {α β : Type} (p : α → Bool) (g : α → β) :
    ∀ (xs : List α) (base : Option β),
      xs.foldl (fun acc l => if p l then some (g l) else acc) base =
        match (xs.filter p).getLast? with
        | some l => some (g l)
        | none => base := by
  intro xs
  induction xs with
  | nil =>
    intro base
    rfl
  | cons x rest ih =>
    intro base
    rw [List.foldl_cons]
    by_cases hp : p x = true
    · rw [if_pos hp, List.filter_cons_of_pos hp, ih]
      cases hfil : rest.filter p with
      | nil => simp
      | cons c cs =>
        rw [List.getLast?_cons_cons]
        cases hl : (c :: cs).getLast? with
        | some l2 => rfl
        | none => exact absurd hl (by simp)
    · rw [if_neg hp, List.filter_cons_of_neg (by simpa using hp), ih]

theorem buildSocketsMap_fold_get (outer : List Match.IItem)
    (outerNodes : List Match.ONode) (nodeId : Nat) :
    ∀ (links : List Match.OLink) (m0 : List (String × String)) (p0 : List Nat)
      (r : List (String × String) × List Nat),
      links.foldlM
        (fun (acc : List (String × String) × List Nat) l =>
          if Match.linkQualifies outerNodes nodeId l then do
            let some ps := Match.source_id_to_panels outer l.from_socket
              | throw "KeyError: source_id_to_panels"
            return (Match.dictInsert acc.1 l.from_socket l.to_socket,
              Match.setUnion acc.2 ps)
          else return acc) (m0, p0) = (Except.ok r : Except String (List (String × String) × List Nat)) →
      ∀ sid, Match.dictGet r.1 sid =
        links.foldl (fun acc l =>
          if Match.linkQualifies outerNodes nodeId l && l.from_socket == sid
          then some l.to_socket else acc) (Match.dictGet m0 sid) := by
  intro links
  induction links with
  | nil =>
    intro m0 p0 r hfold sid
    have h1 : (m0, p0) = r := by
      simpa [pure, Except.pure] using hfold
    rw [← h1]
    rfl
  | cons l rest ih =>
    intro m0 p0 r hfold sid
    rw [List.foldlM_cons] at hfold
    rw [List.foldl_cons]
    by_cases hq : Match.linkQualifies outerNodes nodeId l = true
    · rw [if_pos hq] at hfold
      cases hsp : Match.source_id_to_panels outer l.from_socket with
      | none =>
        rw [hsp] at hfold
        exact absurd hfold (by simp [Bind.bind, Except.bind])
      | some ps =>
        rw [hsp] at hfold
        have hfold2 : rest.foldlM
            (fun (acc : List (String × String) × List Nat) l =>
              if Match.linkQualifies outerNodes nodeId l then do
                let some ps := Match.source_id_to_panels outer l.from_socket
                  | throw "KeyError: source_id_to_panels"
                return (Match.dictInsert acc.1 l.from_socket l.to_socket,
                  Match.setUnion acc.2 ps)
              else return acc)
            (Match.dictInsert m0 l.from_socket l.to_socket,
              Match.setUnion p0 ps) = (Except.ok r : Except String (List (String × String) × List Nat)) := hfold
        have hrec := ih _ _ r hfold2 sid
        rw [hrec]
        by_cases hsid : (l.from_socket == sid) = true
        · rw [if_pos (by simp [hq, hsid])]
          have h3 : l.from_socket = sid := by simpa using hsid
          rw [← h3, dictGet_insert_self]
        · rw [if_neg (by simp [hsid])]
          rw [dictGet_insert_ne m0 l.from_socket l.to_socket sid
            (by simpa using hsid)]
    · rw [if_neg hq] at hfold
      have hfold2 : rest.foldlM
          (fun (acc : List (String × String) × List Nat) l =>
            if Match.linkQualifies outerNodes nodeId l then do
              let some ps := Match.source_id_to_panels outer l.from_socket
                | throw "KeyError: source_id_to_panels"
              return (Match.dictInsert acc.1 l.from_socket l.to_socket,
                Match.setUnion acc.2 ps)
            else return acc) (m0, p0) = (Except.ok r : Except String (List (String × String) × List Nat)) := hfold
      have hrec := ih _ _ r hfold2 sid
      rw [hrec, if_neg (by simp [hq])]

theorem find?_uid_stable (u tuid : Nat) (hne : ¬(tuid = u))
    (f : Match.IItem → Match.IItem)
    (hpres : ∀ it, (f it).uid = it.uid)
    (hfix : ∀ it, ¬(it.uid = tuid) → f it = it) :
    ∀ (l : List Match.IItem),
      (l.map f).find? (fun x => x.uid == u) = l.find? (fun x => x.uid == u) := by
  intro l
  induction l with
  | nil => rfl
  | cons a rest ih =>
    simp only [List.map_cons]
    rw [List.find?_cons, List.find?_cons]
    rw [hpres a]
    cases hpa : (a.uid == u) with
    | true =>
      simp only [hpa]
      have ha : ¬(a.uid = tuid) := by
        have h2 : a.uid = u := by simpa using hpa
        omega
      rw [hfix a ha]
    | false =>
      simp only [hpa]
      exact ih

theorem find?_append_new (u : Nat) (l : List Match.IItem) (a : Match.IItem)
    (hne : ¬(a.uid = u)) :
    (l ++ [a]).find? (fun x => x.uid == u) = l.find? (fun x => x.uid == u) := by
  rw [List.find?_append]
  have h2 : List.find? (fun x => x.uid == u) [a] = none := by
    rw [List.find?_cons_of_neg _ (by simpa using hne)]
    rfl
  rw [h2]
  cases List.find? (fun x => x.uid == u) l <;> rfl

theorem moveToParent_find?_stable (l : List Match.IItem) (tuid dest pos u : Nat)
    (hne : ¬(tuid = u)) :
    (Match.moveToParent l tuid dest pos).find? (fun x => x.uid == u) =
      l.find? (fun x => x.uid == u) := by
  unfold Match.moveToParent
  apply find?_uid_stable u tuid hne
  · intro it2
    by_cases h : (it2.uid == tuid) = true
    · rw [if_pos h]
    · rw [if_neg h]
  · intro it2 h2
    rw [if_neg (by simpa using h2)]

theorem copyOnto_find?_stable (l : List Match.IItem) (tuid : Nat)
    (src : Match.IfaceSocket) (u : Nat) (hne : ¬(tuid = u)) :
    (Match.copyOnto l tuid src).find? (fun x => x.uid == u) =
      l.find? (fun x => x.uid == u) := by
  unfold Match.copyOnto
  apply find?_uid_stable u tuid hne
  · intro it2
    by_cases h : (it2.uid == tuid) = true
    · rw [if_pos h]
    · rw [if_neg h]
  · intro it2 h2
    rw [if_neg (by simpa using h2)]

theorem rebuildStep_untouched (panels : List Nat)
    (sockets_map : List (String × String)) (target0 : List Match.IItem)
    (st0 st1 : List Match.IItem × List (Nat × Nat) × Nat)
    (it : Match.IItem) (u : Nat)
    (hstep : Match.rebuildStep panels sockets_map target0 st0 it =
      Except.ok st1)
    (hu : u < st0.2.2)
    (ht : Match.touchedUid sockets_map target0 it ≠ some u) :
    st1.1.find? (fun x => x.uid == u) = st0.1.find? (fun x => x.uid == u) ∧
      st0.2.2 ≤ st1.2.2 := by
  unfold Match.rebuildStep at hstep
  simp only [] at hstep
  by_cases hp : (it.item_type == "PANEL") = true
  · rw [if_pos hp] at hstep
    by_cases hc : (!panels.contains it.uid) = true
    · rw [if_pos hc] at hstep
      have h1 : st0 = st1 := by simpa [pure, Except.pure] using hstep
      rw [← h1]
      exact ⟨rfl, le_refl _⟩
    · rw [if_neg hc] at hstep
      cases hd : Match.natDictGet (Match.natDictInsert st0.2.1 it.uid st0.2.2)
          it.parentId with
      | none =>
        rw [hd] at hstep
        exact absurd hstep (by simp)
      | some dest =>
        rw [hd] at hstep
        have h1 : ((Match.moveToParent (st0.1 ++ [Match.newPanelItem st0.2.2
            it.pname it.pdescription it.default_closed]) st0.2.2 dest
            it.position, Match.natDictInsert st0.2.1 it.uid st0.2.2,
            st0.2.2 + 1) :
              List Match.IItem × List (Nat × Nat) × Nat) = st1 := by
          simpa [pure, Except.pure] using hstep
        rw [← h1]
        constructor
        · rw [moveToParent_find?_stable _ _ _ _ _ (by omega)]
          rw [find?_append_new u st0.1 _ (by
            show ¬((Match.newPanelItem st0.2.2 it.pname it.pdescription
              it.default_closed).uid = u)
            unfold Match.newPanelItem
            simp only []
            omega)]
        · show st0.2.2 ≤ st0.2.2 + 1
          omega
  · rw [if_neg hp] at hstep
    cases hg : Match.dictGet sockets_map it.sock.identifier with
    | none =>
      rw [hg] at hstep
      have h1 : st0 = st1 := by simpa [pure, Except.pure] using hstep
      rw [← h1]
      exact ⟨rfl, le_refl _⟩
    | some tid =>
      rw [hg] at hstep
      simp only [] at hstep
      by_cases htid : (tid == "") = true
      · rw [if_pos htid] at hstep
        have h1 : st0 = st1 := by simpa [pure, Except.pure] using hstep
        rw [← h1]
        exact ⟨rfl, le_refl _⟩
      · rw [if_neg htid] at hstep
        cases hti : Match.targetIdToIface target0 tid with
        | none =>
          rw [hti] at hstep
          exact absurd hstep (by simp)
        | some tuid =>
          rw [hti] at hstep
          cases hd : Match.natDictGet st0.2.1 it.parentId with
          | none =>
            rw [hd] at hstep
            exact absurd hstep (by simp)
          | some dest =>
            rw [hd] at hstep
            have h1 : ((Match.moveToParent (Match.copyOnto st0.1 tuid it.sock)
                tuid dest it.position, st0.2.1, st0.2.2) :
                  List Match.IItem × List (Nat × Nat) × Nat) = st1 := by
              simpa [pure, Except.pure] using hstep
            have htuid : ¬(tuid = u) := by
              intro hcon
              apply ht
              unfold Match.touchedUid
              rw [if_neg hp, hg]
              simp only []
              rw [if_neg htid, hti, hcon]
            rw [← h1]
            refine ⟨?_, le_refl _⟩
            rw [moveToParent_find?_stable _ _ _ _ _ htuid]
            exact copyOnto_find?_stable st0.1 tuid it.sock u htuid

theorem rebuild_untouched (panels : List Nat)
    (sockets_map : List (String × String)) (target0 : List Match.IItem)
    (u : Nat) :
    ∀ (items : List Match.IItem)
      (st0 st1 : List Match.IItem × List (Nat × Nat) × Nat),
      items.foldlM (Match.rebuildStep panels sockets_map target0) st0 =
        Except.ok st1 →
      u < st0.2.2 →
      (∀ it ∈ items, Match.touchedUid sockets_map target0 it ≠ some u) →
      st1.1.find? (fun x => x.uid == u) = st0.1.find? (fun x => x.uid == u) ∧
        st0.2.2 ≤ st1.2.2 := by
  intro items
  induction items with
  | nil =>
    intro st0 st1 hfold hu htouch
    have h1 : st0 = st1 := by simpa [pure, Except.pure] using hfold
    rw [← h1]
    exact ⟨rfl, le_refl _⟩
  | cons it rest ih =>
    intro st0 st1 hfold hu htouch
    rw [List.foldlM_cons] at hfold
    cases hstep : Match.rebuildStep panels sockets_map target0 st0 it with
    | error e =>
      rw [hstep] at hfold
      exact absurd hfold (by simp [Bind.bind, Except.bind])
    | ok st2 =>
      rw [hstep] at hfold
      have hfold2 : rest.foldlM (Match.rebuildStep panels sockets_map target0)
          st2 = Except.ok st1 := hfold
      have hone := rebuildStep_untouched panels sockets_map target0 st0 st2 it u
        hstep hu (htouch it (List.mem_cons_self it rest))
      have hrec := ih st2 st1 hfold2 (by omega)
        (fun it2 h2 => htouch it2 (List.mem_cons_of_mem it h2))
      exact ⟨hrec.1.trans hone.1, le_trans hone.2 hrec.2⟩

/-- C9: when the same outer source socket feeds several input sockets of
the selected node, the sockets map keeps only the last such link (the
dictionary entry for the source identifier is overwritten), so a rebuild
step for a source item with that identifier copies onto and moves only
the target resolved from the last link; and any target item no step
touches — the earlier-linked destination sockets in particular — comes
out of the rebuild walk identical, neither modified nor moved. -/
theorem matcher_last_link_wins
    (outer : List Match.IItem) (outerNodes : List Match.ONode) (nodeId : Nat)
    (links : List Match.OLink) (r : List (String × String) × List Nat)
    (sid : String) (earlier : List Match.OLink) (llast : Match.OLink)
    (hbs : Match.buildSocketsMap outer outerNodes nodeId links = .ok r)
    (hdup : links.filter (fun l =>
        Match.linkQualifies outerNodes nodeId l && l.from_socket == sid) =
      earlier ++ [llast]) :
    Match.dictGet r.1 sid = some llast.to_socket ∧
    (∀ (target0 : List Match.IItem) (it : Match.IItem),
      (it.item_type == "PANEL") = false → it.sock.identifier = sid →
      (llast.to_socket == "") = false →
      Match.touchedUid r.1 target0 it =
        Match.targetIdToIface target0 llast.to_socket) ∧
    (∀ (target0 items : List Match.IItem)
      (st0 st1 : List Match.IItem × List (Nat × Nat) × Nat) (u : Nat),
      items.foldlM (Match.rebuildStep r.2 r.1 target0) st0 = Except.ok st1 →
      u < st0.2.2 →
      (∀ it ∈ items, Match.touchedUid r.1 target0 it ≠ some u) →
      st1.1.find? (fun x => x.uid == u) =
        st0.1.find? (fun x => x.uid == u)) := by
  have hget : Match.dictGet r.1 sid = some llast.to_socket := by
    unfold Match.buildSocketsMap at hbs
    have h1 := buildSocketsMap_fold_get outer outerNodes nodeId links [] [] r
      hbs sid
    rw [h1]
    rw [foldl_last_update (fun l => Match.linkQualifies outerNodes nodeId l &&
      l.from_socket == sid) (fun l => l.to_socket) links (Match.dictGet [] sid)]
    rw [hdup, List.getLast?_concat]
  refine ⟨hget, ?_, ?_⟩
  · intro target0 it hpan hid hne
    unfold Match.touchedUid
    rw [if_neg (by simp [hpan]), hid, hget]
    simp only []
    rw [if_neg (by simp [hne])]
  · intro target0 items st0 st1 u hfold hu htouch
    exact (rebuild_untouched r.2 r.1 target0 u items st0 st1 hfold hu htouch).1

theorem matcher_last_link_wins_witness :
    Match.dictGet [("A", "T2")] "A" = some "T2" ∧
    (∀ (target0 : List Match.IItem) (it : Match.IItem),
      (it.item_type == "PANEL") = false → it.sock.identifier = "A" →
      (("T2" : String) == "") = false →
      Match.touchedUid [("A", "T2")] target0 it =
        Match.targetIdToIface target0 "T2") ∧
    (∀ (target0 items : List Match.IItem)
      (st0 st1 : List Match.IItem × List (Nat × Nat) × Nat) (u : Nat),
      items.foldlM (Match.rebuildStep [0] [("A", "T2")] target0) st0 =
        Except.ok st1 →
      u < st0.2.2 →
      (∀ it ∈ items, Match.touchedUid [("A", "T2")] target0 it ≠ some u) →
      st1.1.find? (fun x => x.uid == u) =
        st0.1.find? (fun x => x.uid == u)) :=
  matcher_last_link_wins [Match.exSockA2] Match.exOuterNodes 20
    Match.exDupLinks ([("A", "T2")], [0]) "A"
    [⟨10, "A", 20, "T1"⟩] ⟨10, "A", 20, "T2"⟩ rfl (by decide)

end BlenderTools
